import Mathlib

/-!
# Spell mechanics of the battle engine (`lib/spells/ISpellMechanics.cpp`)

A shallow embedding of the per-cast value object `BattleCast`, of the
parameter resolution done by the `BaseMechanics` constructor, of its target-type
query and of its adaptation of rejection codes, of the target enumeration
`BattleCast::findPotentialTargets`, of the two cast entry points with the
magic-mirror reflection loop and of `applyEffects`, of the factory selection
`ISpellMechanicsFactory::get`, of the effects `FallbackMechanicsFactory`
synthesises from the legacy tables, and of the adventure-map dispatch
`IAdventureSpellMechanics::createMechanics`.

Integers of the source (`int32_t`, `int64_t`) are embedded as `Int`: the
embedded code only assigns and compares them, it performs no arithmetic on
them, so no wrap-around can occur.  `boost::optional` is `Option`,
`std::vector` is `List`, `std::unique_ptr` is `Option` (empty pointer = `none`).
-/

namespace spells

/-! ## Data model -/

/-- Modelled from the spec: the trigger-mode enumeration `spells::Mode` is declared in a
header that is not part of the sources; the spec lists "normal hero cast, creature ability,
spell-like attack, after-attack reaction, reflected".  The source names `MAGIC_MIRROR`
and the test names `AFTER_ATTACK`. -/
inductive Mode where
  | HERO
  | CREATURE_ACTIVE
  | SPELL_LIKE_ATTACK
  | AFTER_ATTACK
  | MAGIC_MIRROR
  deriving DecidableEq, Repr

/-- Modelled from the spec: the aim-type classification `AimType` ("no-target / location /
unit / obstacle"); its declaration is not part of the sources. -/
inductive AimType where
  | NO_TARGET
  | CREATURE
  | OBSTACLE
  | LOCATION
  deriving DecidableEq, Repr

/-- Spell identities named by the source (`SpellID::...`); every other identity is
`other n`.  The enumeration itself is declared outside the sources; the `case` labels of one
`switch` are pairwise distinct, which the constructors reflect. -/
inductive SpellID where
  | SUMMON_BOAT
  | SCUTTLE_BOAT
  | DIMENSION_DOOR
  | FLY
  | WATER_WALK
  | VISIONS
  | DISGUISE
  | TOWN_PORTAL
  | VIEW_EARTH
  | VIEW_AIR
  | FIRE_WALL
  | FORCE_FIELD
  | LAND_MINE
  | QUICKSAND
  | AGE
  | other (n : Nat)
  deriving DecidableEq, Repr

/-- `IBattleCast::Value` (`int32_t`). -/
abbrev Value := Int

/-- `IBattleCast::Value64` (`int64_t`). -/
abbrev Value64 := Int

/-- `IBattleCast::OptionalValue` (`boost::optional<Value>`). -/
abbrev OptionalValue := Option Value

/-- `IBattleCast::OptionalValue64` (`boost::optional<Value64>`). -/
abbrev OptionalValue64 := Option Value64

/-- A battlefield hex, by its number. -/
structure BattleHex where
  hex : Int
  deriving DecidableEq, Repr

/-- Modelled from the spec: the "invalid" placeholder hex `BattleHex::INVALID`; the constant
is defined outside the sources, nothing below depends on its numeric value. -/
def BattleHex.INVALID : BattleHex := ⟨-1⟩

/-- A destination, built by one of the two constructors the source uses:
`Destination(const BattleHex &)` and `Destination(const battle::Unit *)` (a unit is named
by its identifier). -/
inductive Destination where
  | ofHex (h : BattleHex)
  | ofUnit (unitId : Nat)
  deriving DecidableEq, Repr

/-- `Target` (`std::vector<Destination>`). -/
abbrev Target := List Destination

/-- The bonus kinds the source names (`Bonus::BLOCK_MAGIC_ABOVE`); every other kind is
`other n`. -/
inductive BonusType where
  | BLOCK_MAGIC_ABOVE
  | other (n : Nat)
  deriving DecidableEq, Repr

/-- The bonus sources the source names (`Bonus::ARTIFACT`, `Bonus::TERRAIN_OVERLAY`); every
other source is `other n`. -/
inductive BonusSource where
  | ARTIFACT
  | TERRAIN_OVERLAY
  | other (n : Nat)
  deriving DecidableEq, Repr

/-- The members of `Bonus` the embedded code reads. -/
structure Bonus where
  type : BonusType
  val : Int
  source : BonusSource
  sid : Int
  deriving DecidableEq, Repr

/-- The legacy tables of `CSpell::LevelInfo` the fallback factory reads: `effects` and
`cumulativeEffects`. -/
structure LevelInfo where
  effects : List Bonus
  cumulativeEffects : List Bonus
  deriving DecidableEq, Repr

/-- The members of `CSpell::TargetInfo` the embedded code reads. -/
structure TargetInfo where
  smart : Bool
  massive : Bool
  deriving DecidableEq, Repr

/-- The part of `CSpell` the embedded code reads.  `hasBattleEffects`,
`calculateRawEffectValue`, `isOffensiveSpell`, `getLevelInfo` and `getTargetType` are member
functions defined outside the sources and are taken as given, `calculateRawEffectValue` as a
function of (effect level, base power multiplier, level power multiplier); `targetInfo`
stands for the constructor `CSpell::TargetInfo(spell, level, mode)`, also defined outside
the sources. -/
structure CSpell where
  id : SpellID
  hasBattleEffects : Bool
  calculateRawEffectValue : Int → Int → Int → Int
  isOffensiveSpell : Bool
  getLevelInfo : Nat → LevelInfo
  getTargetType : AimType
  targetInfo : Int → Mode → TargetInfo

/-- The kinds of text a `MetaString` refers to, as far as the source names them. -/
inductive MetaStringKind where
  | GENERAL_TXT
  | ART_NAMES
  deriving DecidableEq, Repr

/-- One call that builds up a `MetaString`: `addTxt(kind, serial)`,
`addReplacement(kind, serial)` or `addReplacement(text)`. -/
inductive MetaStringItem where
  | addTxt (kind : MetaStringKind) (serial : Int)
  | addReplacement (kind : MetaStringKind) (serial : Int)
  | addReplacementText (text : String)
  deriving DecidableEq, Repr

/-- A `MetaString`, as the calls that built it, in order. -/
abbrev MetaString := List MetaStringItem

/-- A hero, `CGHeroInstance`, as far as the embedded code reads it: the answer of
`getBonusLocalFirst(Selector::type(t))` for a bonus kind `t` (an empty pointer is `none`). -/
structure CGHeroInstance where
  getBonusLocalFirst : BonusType → Option Bonus

/-- The capability interface `Caster`, as far as the embedded code queries it.  The result
types of the queries are declared outside the sources; each result is embedded as the integer
the constructor of `BaseMechanics` assigns.  `getCasterName(text)` extends the text it is
given; `asHero` is the result of `dynamic_cast<const CGHeroInstance *>(caster)`, `none` for a
caster that is not a hero. -/
structure Caster where
  getOwner : Nat
  getSpellSchoolLevel : Mode → CSpell → Int
  getEffectLevel : Mode → CSpell → Int
  getEffectPower : Mode → CSpell → Int
  getEnchantPower : Mode → CSpell → Int
  getEffectValue : Mode → CSpell → Int
  getCasterName : MetaString → MetaString
  asHero : Option CGHeroInstance

/-- A battle stack as the reflection loop sees it: its owner, its position, the answer of
`isValidTarget`, and the stack seen as a `Caster` (the upcast used when a stack reflects). -/
structure CStack where
  owner : Nat
  getPosition : BattleHex
  isValidTarget : Bool → Bool
  asCaster : Caster

/-- The battle context `CBattleInfoCallback` over a battle state `σ`: the stacks currently in
the battle. -/
structure CBattleInfoCallback (σ : Type) where
  battleGetAllStacks : σ → List CStack

/-- Modelled from the spec: `battleGetStacksIf` is defined outside the sources; the spec says
"query the battle context for all units ... that are currently valid targets", i.e. the
stacks of the battle that satisfy the predicate, in battle order. -/
def CBattleInfoCallback.battleGetStacksIf {σ : Type} (cb : CBattleInfoCallback σ) (s : σ)
    (predicate : CStack → Bool) : List CStack :=
  (cb.battleGetAllStacks s).filter predicate

/-- The per-event value object `BattleCast`. -/
structure BattleCast (σ : Type) where
  spell : CSpell
  cb : CBattleInfoCallback σ
  caster : Caster
  mode : Mode
  spellLvl : OptionalValue
  rangeLevel : OptionalValue
  effectLevel : OptionalValue
  effectPower : OptionalValue
  effectDuration : OptionalValue
  effectValue : OptionalValue64
  target : Target

variable {σ : Type}

/-- `BattleCast::BattleCast(cb, caster_, mode_, spell_)`: every optional value starts
empty (`rangeLevel` is default-constructed), no destination is staged. -/
def BattleCast.create (cb : CBattleInfoCallback σ) (caster_ : Caster) (mode_ : Mode)
    (spell_ : CSpell) : BattleCast σ where
  spell := spell_
  cb := cb
  caster := caster_
  mode := mode_
  spellLvl := none
  rangeLevel := none
  effectLevel := none
  effectPower := none
  effectDuration := none
  effectValue := none
  target := []

/-- `BattleCast::BattleCast(const BattleCast & orig, const Caster * caster_)`, the reflection
constructor.  Its initialiser list names `spellLvl`, `effectLevel`, `effectPower`,
`effectDuration` and `effectValue`; `rangeLevel` and `target` are not named and so are
default-constructed. -/
def BattleCast.reflect (orig : BattleCast σ) (caster_ : Caster) : BattleCast σ where
  spell := orig.spell
  cb := orig.cb
  caster := caster_
  mode := Mode.MAGIC_MIRROR
  spellLvl := orig.spellLvl
  rangeLevel := none
  effectLevel := orig.effectLevel
  effectPower := orig.effectPower
  effectDuration := orig.effectDuration
  effectValue := orig.effectValue
  target := []

/-- `BattleCast::getEffectLevel`. -/
def BattleCast.getEffectLevel (self : BattleCast σ) : OptionalValue :=
  if self.effectLevel.isSome then self.effectLevel else self.spellLvl

/-- `BattleCast::getRangeLevel`. -/
def BattleCast.getRangeLevel (self : BattleCast σ) : OptionalValue :=
  if self.rangeLevel.isSome then self.rangeLevel else self.spellLvl

/-- `BattleCast::getEffectPower`. -/
def BattleCast.getEffectPower (self : BattleCast σ) : OptionalValue :=
  self.effectPower

/-- `BattleCast::getEffectDuration`. -/
def BattleCast.getEffectDuration (self : BattleCast σ) : OptionalValue :=
  self.effectDuration

/-- `BattleCast::getEffectValue`. -/
def BattleCast.getEffectValue (self : BattleCast σ) : OptionalValue64 :=
  self.effectValue

/-- `BattleCast::setSpellLevel`. -/
def BattleCast.setSpellLevel (self : BattleCast σ) (value : Value) : BattleCast σ :=
  { self with spellLvl := some value }

/-- `BattleCast::setEffectLevel`. -/
def BattleCast.setEffectLevel (self : BattleCast σ) (value : Value) : BattleCast σ :=
  { self with effectLevel := some value }

/-- `BattleCast::setRangeLevel`. -/
def BattleCast.setRangeLevel (self : BattleCast σ) (value : Value) : BattleCast σ :=
  { self with rangeLevel := some value }

/-- `BattleCast::setEffectPower`. -/
def BattleCast.setEffectPower (self : BattleCast σ) (value : Value) : BattleCast σ :=
  { self with effectPower := some value }

/-- `BattleCast::setEffectDuration`. -/
def BattleCast.setEffectDuration (self : BattleCast σ) (value : Value) : BattleCast σ :=
  { self with effectDuration := some value }

/-- `BattleCast::setEffectValue`. -/
def BattleCast.setEffectValue (self : BattleCast σ) (value : Value64) : BattleCast σ :=
  { self with effectValue := some value }

/-- `BattleCast::aimToHex`: `target.push_back(Destination(destination))`. -/
def BattleCast.aimToHex (self : BattleCast σ) (destination : BattleHex) : BattleCast σ :=
  { self with target := self.target ++ [Destination.ofHex destination] }

/-! ## `BaseMechanics`: resolution of the five numeric parameters -/

/-- Modelled from the spec: `vstd::amax(a, b)` is defined outside the sources; the spec says
power and duration are "floored at zero", i.e. `a` is raised to `b` when it is below. -/
def vstd.amax (a b : Int) : Int :=
  if a ≥ b then a else b

/-- Modelled from the spec: `vstd::amin(a, b)`, the counterpart of `amax` used by the
clamp: `a` is lowered to `b` when it is above. -/
def vstd.amin (a b : Int) : Int :=
  if a ≤ b then a else b

/-- Modelled from the spec: `vstd::abetween(a, b, c)` is defined outside the sources; the
spec says the levels are "clamped into [0,3]": `a` is made to fit the range from `b` to
`c`. -/
def vstd.abetween (a b c : Int) : Int :=
  vstd.amin (vstd.amax a b) c

/-- The state a `BaseMechanics` holds once its constructor has run. -/
structure BaseMechanics where
  mode : Mode
  caster : Caster
  owner : CSpell
  rangeLevel : Value
  effectLevel : Value
  effectPower : Value
  effectDuration : Value
  effectValue : Value64

/-- `BaseMechanics::BaseMechanics(const IBattleCast * event)`: the five blocks of the
constructor body, in order.  Of the base-class constructor `Mechanics::Mechanics` only `mode`
and `caster` are kept; `casterStack` and `casterSide` are read by no embedded function. -/
def BaseMechanics.create (event : BattleCast σ) : BaseMechanics :=
  let mode := event.mode
  let caster := event.caster
  let owner := event.spell
  let rangeLevel :=
    vstd.abetween
      (match event.getRangeLevel with
        | some value => value
        | none => caster.getSpellSchoolLevel mode owner) 0 3
  let effectLevel :=
    vstd.abetween
      (match event.getEffectLevel with
        | some value => value
        | none => caster.getEffectLevel mode owner) 0 3
  let effectPower :=
    vstd.amax
      (match event.getEffectPower with
        | some value => value
        | none => caster.getEffectPower mode owner) 0
  let effectDuration :=
    vstd.amax
      (match event.getEffectDuration with
        | some value => value
        | none => caster.getEnchantPower mode owner) 0
  let effectValue :=
    vstd.amax
      (match event.getEffectValue with
        | some value => value
        | none =>
          let casterValue := caster.getEffectValue mode owner
          if casterValue = 0 then owner.calculateRawEffectValue effectLevel effectPower 1
          else casterValue) 0
  { mode := mode, caster := caster, owner := owner, rangeLevel := rangeLevel,
    effectLevel := effectLevel, effectPower := effectPower,
    effectDuration := effectDuration, effectValue := effectValue }

/-- `BaseMechanics::getRangeLevel`. -/
def BaseMechanics.getRangeLevel (m : BaseMechanics) : Value := m.rangeLevel

/-- `BaseMechanics::getEffectLevel`. -/
def BaseMechanics.getEffectLevel (m : BaseMechanics) : Value := m.effectLevel

/-- `BaseMechanics::getEffectPower`. -/
def BaseMechanics.getEffectPower (m : BaseMechanics) : Value := m.effectPower

/-- `BaseMechanics::getEffectDuration`. -/
def BaseMechanics.getEffectDuration (m : BaseMechanics) : Value := m.effectDuration

/-- `BaseMechanics::getEffectValue`. -/
def BaseMechanics.getEffectValue (m : BaseMechanics) : Value64 := m.effectValue

/-- `BaseMechanics::isSmart`. -/
def BaseMechanics.isSmart (m : BaseMechanics) : Bool :=
  (m.owner.targetInfo m.getRangeLevel m.mode).smart

/-- `BaseMechanics::isMassive`. -/
def BaseMechanics.isMassive (m : BaseMechanics) : Bool :=
  (m.owner.targetInfo m.getRangeLevel m.mode).massive

/-- `BaseMechanics::getTargetTypes`.  `canBeCast` is the virtual member function
`canBeCast(Problem &)`, implemented by the subclasses outside the sources; the problem
collector it fills is discarded here. -/
def BaseMechanics.getTargetTypes (canBeCast : BaseMechanics → Bool) (m : BaseMechanics) :
    List AimType :=
  let ret : List AimType := []
  if canBeCast m then
    let spellTargetType := m.owner.getTargetType
    let spellTargetType1 :=
      if m.isMassive then AimType.NO_TARGET
      else if spellTargetType = AimType.OBSTACLE then AimType.LOCATION
      else spellTargetType
    ret ++ [spellTargetType1]
  else ret

/-! ## `BaseMechanics::adaptProblem` -/

/-- The rejection codes `ESpellCastProblem` the source names; every other code is
`other n`. -/
inductive ESpellCastProblem where
  | OK
  | SPELL_LEVEL_LIMIT_EXCEEDED
  | WRONG_SPELL_TARGET
  | STACK_IMMUNE_TO_SPELL
  | NO_APPROPRIATE_TARGET
  | INVALID
  | other (n : Nat)
  deriving DecidableEq, Repr

/-- Modelled from the spec: the severities of `spells::Problem` are declared outside the
sources; the spec says "severity ranges from informational to critical", the source names
`NORMAL` and `CRITICAL`. -/
inductive Severity where
  | LOWEST
  | NORMAL
  | CRITICAL
  deriving DecidableEq, Repr

/-- The problem collector `Problem`, as the (message, severity) pairs added, in order. -/
abbrev Problem := List (MetaString × Severity)

/-- Modelled from the spec: `Problem::add(text, severity)` is defined outside the sources;
the spec calls `Problem` "an accumulator of (message, severity) pairs". -/
def Problem.add (target : Problem) (text : MetaString) (severity : Severity) : Problem :=
  target ++ [(text, severity)]

/-- `MetaString::addTxt(kind, serial)`. -/
def MetaString.addTxt (text : MetaString) (kind : MetaStringKind) (serial : Int) : MetaString :=
  text ++ [MetaStringItem.addTxt kind serial]

/-- `MetaString::addReplacement(kind, serial)`. -/
def MetaString.addReplacement (text : MetaString) (kind : MetaStringKind) (serial : Int) :
    MetaString :=
  text ++ [MetaStringItem.addReplacement kind serial]

/-- `MetaString::addReplacement(text)`. -/
def MetaString.addReplacementText (text : MetaString) (replacement : String) : MetaString :=
  text ++ [MetaStringItem.addReplacementText replacement]

/-- Modelled from the spec: the battlefield kind `BFieldType::CURSED_GROUND` ("a
terrain-imposed restriction") is defined outside the sources; nothing below depends on its
numeric value. -/
def BFieldType.CURSED_GROUND : Int := 22

/-- `BaseMechanics::adaptGenericProblem`: the returned flag and the collector. -/
def BaseMechanics.adaptGenericProblem (m : BaseMechanics) (target : Problem) : Bool × Problem :=
  let text : MetaString := []
  let text1 := text.addTxt MetaStringKind.GENERAL_TXT 541
  let text2 := m.caster.getCasterName text1
  (false, target.add text2 Severity.NORMAL)

/-- `BaseMechanics::adaptProblem`: the returned flag and the collector, or `none` when the
call dereferences a null pointer: `hero` is the result of a `dynamic_cast` and is used in
`hero->getBonusLocalFirst(...)` without a test.  The tests `b && ...` on the bonus pointer are
the `some b` and `none` cases of the lookup. -/
def BaseMechanics.adaptProblem (m : BaseMechanics) (source : ESpellCastProblem)
    (target : Problem) : Option (Bool × Problem) :=
  if source = ESpellCastProblem.OK then some (true, target)
  else
    match source with
    | ESpellCastProblem.SPELL_LEVEL_LIMIT_EXCEEDED =>
      let text : MetaString := []
      match m.caster.asHero with
      | none => none
      | some hero =>
        match hero.getBonusLocalFirst BonusType.BLOCK_MAGIC_ABOVE with
        | some b =>
          if b.val = 2 ∧ b.source = BonusSource.ARTIFACT then
            let text1 := text.addTxt MetaStringKind.GENERAL_TXT 536
            let text2 := text1.addReplacement MetaStringKind.ART_NAMES b.sid
            let text3 := m.caster.getCasterName text2
            some (false, target.add text3 Severity.NORMAL)
          else if b.source = BonusSource.TERRAIN_OVERLAY ∧ b.sid = BFieldType.CURSED_GROUND then
            let text1 := text.addTxt MetaStringKind.GENERAL_TXT 537
            some (false, target.add text1 Severity.NORMAL)
          else some (m.adaptGenericProblem target)
        | none => some (m.adaptGenericProblem target)
    | ESpellCastProblem.WRONG_SPELL_TARGET
    | ESpellCastProblem.STACK_IMMUNE_TO_SPELL
    | ESpellCastProblem.NO_APPROPRIATE_TARGET =>
      let text : MetaString := []
      let text1 := text.addTxt MetaStringKind.GENERAL_TXT 185
      some (false, target.add text1 Severity.NORMAL)
    | ESpellCastProblem.INVALID =>
      let text : MetaString := []
      let text1 := text.addReplacementText "Internal error during check of spell cast."
      some (false, target.add text1 Severity.CRITICAL)
    | _ => some (m.adaptGenericProblem target)

/-! ## Behaviours and the collaborators of a cast -/

/-- The environment of a cast, `SpellCastEnvironment`, as far as `BattleCast::cast` uses it:
the shared random generator behind `getRandomGenerator()`.  `nextItem` stands for
`RandomGeneratorUtil::nextItem(container, generator)`, defined outside the sources: on a
non-empty container it yields one of its members and the advanced battle state. -/
structure SpellCastEnvironment (σ : Type) where
  nextItem : (container : List CStack) → container.isEmpty = false → σ →
    {x : CStack // x ∈ container} × σ

/-- The behaviour interface `Mechanics`, as far as `BattleCast` calls it.  The bodies are
virtual and defined outside the sources; `cast` returns the new battle state together with
the units it put into its `reflected` out-parameter; `castOnBattleState` is the overload
`cast(battleState, rng, target)`, the battle state holding the random source;
`applyEffects(env, target)` and `applyEffectsForced(env, target)` return the new battle
state. -/
structure Mechanics (σ : Type) where
  getTargetTypes : List AimType
  getPossibleDestinations : Nat → AimType → Target → List Destination
  cast : SpellCastEnvironment σ → σ → Target → σ × List CStack
  castOnBattleState : σ → Target → σ
  applyEffects : SpellCastEnvironment σ → σ → Target → σ
  applyEffectsForced : SpellCastEnvironment σ → σ → Target → σ

/-- The member functions of `CSpell` that `BattleCast` and its test call and that are
defined outside the sources: `CSpell::battleMechanics(event)`,
`CSpell::canBeCast(cb, mode, caster)` and `CSpell::canBeCastAt(cb, mode, caster, hex)`
(the last two read the battle state through `cb`). -/
structure SpellService (σ : Type) where
  battleMechanics : CSpell → BattleCast σ → Mechanics σ
  canBeCast : CSpell → CBattleInfoCallback σ → σ → Mode → Caster → Bool
  canBeCastAt : CSpell → CBattleInfoCallback σ → σ → Mode → Caster → BattleHex → Bool

/-! ## `BattleCast::findPotentialTargets` -/

/-- One call `m->getPossibleDestinations(index, type, current)`. -/
structure DestinationQuery where
  index : Nat
  aimType : AimType
  current : Target
  deriving DecidableEq, Repr

/-- The locals of the search loop, and the calls to `getPossibleDestinations` made so far,
in call order. -/
structure SearchState where
  previous : List Target
  next : List Target
  queries : List DestinationQuery
  deriving DecidableEq, Repr

/-- The body of the `for` loop of `findPotentialTargets` for one `index`, up to the test
`if(next.empty()) break;`.  `std::swap(previous, next); next.clear();` leaves the old `next`
in `previous` and empties `next`. -/
def findPotentialTargetsStep (m : Mechanics σ) (index : Nat) (aimType : AimType)
    (st : SearchState) : SearchState :=
  let previous := st.next
  if previous.isEmpty then
    let destinations := m.getPossibleDestinations index aimType []
    { previous := previous
      next := destinations.map (fun destination => [destination])
      queries := st.queries ++ [⟨index, aimType, []⟩] }
  else
    { previous := previous
      next := previous.flatMap (fun current =>
        (m.getPossibleDestinations index aimType current).map
          (fun destination => current ++ [destination]))
      queries := st.queries ++ previous.map (fun current => ⟨index, aimType, current⟩) }

/-- The `for` loop of `findPotentialTargets`, from `index` on; the list argument holds
`targetTypes.at(index)`, `targetTypes.at(index + 1)`, ... up to the last slot. -/
def findPotentialTargetsLoop (m : Mechanics σ) : Nat → List AimType → SearchState → SearchState
  | _, [], st => st
  | index, aimType :: rest, st =>
    let st1 := findPotentialTargetsStep m index aimType st
    if st1.next.isEmpty then st1
    else findPotentialTargetsLoop m (index + 1) rest st1

/-- What `findPotentialTargets` returns, and the destination queries it made. -/
structure SearchResult where
  targets : List Target
  queries : List DestinationQuery
  deriving DecidableEq, Repr

/-- `BattleCast::findPotentialTargets`. -/
def BattleCast.findPotentialTargets (service : SpellService σ) (self : BattleCast σ) :
    SearchResult :=
  let m := service.battleMechanics self.spell self
  let targetTypes := m.getTargetTypes
  if targetTypes.isEmpty || decide (targetTypes.length > 2) then
    { targets := [], queries := [] }
  else
    let st := findPotentialTargetsLoop m 0 targetTypes { previous := [], next := [], queries := [] }
    { targets := st.next, queries := st.queries }

/-! ## `BattleCast::cast` and the reflection loop -/

/-- What a cast does to its collaborators, in order: a call of the behaviour's `cast` with the
event it was built from and the destinations handed over; an error written to the log; one
draw from the random generator over that many candidates; the construction, aiming and cast
of a reflected `BattleCast`; a call of the behaviour's overload
`cast(battleState, rng, target)`; a call of the behaviour's `applyEffects`; a call of the
behaviour's `applyEffectsForced`. -/
inductive Effect (σ : Type) where
  | mechanicsCast (event : BattleCast σ) (target : Target)
  | logError (message : String)
  | randomDraw (candidates : Nat)
  | mirrorCast (mirror : BattleCast σ)
  | mechanicsCastOnBattleState (event : BattleCast σ) (target : Target)
  | mechanicsApplyEffects (event : BattleCast σ) (target : Target)
  | mechanicsApplyEffectsForced (event : BattleCast σ) (target : Target)

/-- Whether the effect is a call of a behaviour's `cast`. -/
def Effect.isMechanicsCast : Effect σ → Bool
  | Effect.mechanicsCast _ _ => true
  | _ => false

/-- Whether the effect is the cast of a reflected `BattleCast`. -/
def Effect.isMirrorCast : Effect σ → Bool
  | Effect.mirrorCast _ => true
  | _ => false

/-- Whether the effect is a draw from the random generator. -/
def Effect.isRandomDraw : Effect σ → Bool
  | Effect.randomDraw _ => true
  | _ => false

/-- `BattleCast::aimToUnit`; a null pointer is `none`, a unit is named by its identifier.  The
second component is what the call writes to the log. -/
def BattleCast.aimToUnit (self : BattleCast σ) (destination : Option Nat) :
    BattleCast σ × List (Effect σ) :=
  match destination with
  | none => (self, [Effect.logError "BattleCast::aimToUnit: invalid unit."])
  | some unitId => ({ self with target := self.target ++ [Destination.ofUnit unitId] }, [])

/-- The stacks a reflection may be aimed at, the `mirrorTargets` of `BattleCast::cast`: "all
caster stacks", i.e. the stacks of the battle owned by the owner of this cast's caster for
which `isValidTarget(false)` holds. -/
def BattleCast.mirrorTargets (self : BattleCast σ) (s : σ) : List CStack :=
  self.cb.battleGetStacksIf s (fun battleStack =>
    battleStack.owner == self.caster.getOwner && battleStack.isValidTarget false)

/-- The "Magic Mirror effect" loop of `BattleCast::cast`, over the units left in `reflected`.
`nested` runs `mirror.cast(env)`; it yields `none` when the nested cast does not return.
The `return` in the `MAGIC_MIRROR` branch leaves the whole loop. -/
def reflectionLoop (env : SpellCastEnvironment σ)
    (nested : BattleCast σ → σ → Option (σ × List (Effect σ))) (self : BattleCast σ) :
    List CStack → σ → Option (σ × List (Effect σ))
  | [], s => some (s, [])
  | attackedCre :: rest, s =>
    if self.mode = Mode.MAGIC_MIRROR then
      some (s, [Effect.logError "Magic mirror recurrence!"])
    else
      let mirrorTargets := self.mirrorTargets s
      if h : mirrorTargets.isEmpty = false then
        let drawn := env.nextItem mirrorTargets h s
        let targetHex := drawn.1.val.getPosition
        let mirror := (BattleCast.reflect self attackedCre.asCaster).aimToHex targetHex
        match nested mirror drawn.2 with
        | none => none
        | some (s2, inner) =>
          match reflectionLoop env nested self rest s2 with
          | none => none
          | some (s3, later) =>
            some (s3, Effect.randomDraw mirrorTargets.length :: Effect.mirrorCast mirror ::
              (inner ++ later))
      else
        reflectionLoop env nested self rest s

/-- The first statement of `BattleCast::cast`:
`if(target.empty()) aimToHex(BattleHex::INVALID);`. -/
def BattleCast.stagePlaceholder (self : BattleCast σ) : BattleCast σ :=
  if self.target.isEmpty then self.aimToHex BattleHex.INVALID else self

/-- The result of `BattleCast::cast`: the cast object after the call (its staged
destinations may have received the placeholder), the battle state, and the effects. -/
structure CastResult (σ : Type) where
  self : BattleCast σ
  state : σ
  effects : List (Effect σ)

/-- `BattleCast::cast(const SpellCastEnvironment * env)`.  The recursion through
`mirror.cast(env)` is bounded by `fuel`, the number of nested activations allowed: `none`
means the fuel ran out before the call returned. -/
def BattleCast.cast (service : SpellService σ) (env : SpellCastEnvironment σ) :
    Nat → BattleCast σ → σ → Option (CastResult σ)
  | 0, _, _ => none
  | fuel + 1, self, s =>
    let self1 := self.stagePlaceholder
    let m := service.battleMechanics self1.spell self1
    let done := m.cast env s self1.target
    match reflectionLoop env
        (fun mirror st => (BattleCast.cast service env fuel mirror st).map
          (fun r => (r.state, r.effects)))
        self1 done.2 done.1 with
    | none => none
    | some (s2, effects) =>
      some { self := self1, state := s2,
             effects := Effect.mechanicsCast self1 self1.target :: effects }

/-- What `mirror.cast(env)` leaves to the reflection loop when `fuel` nested activations are
allowed: the battle state and the effects (the reflected cast object is a local of the loop
body and is dropped). -/
def BattleCast.nestedCast (service : SpellService σ) (env : SpellCastEnvironment σ)
    (fuel : Nat) (mirror : BattleCast σ) (st : σ) : Option (σ × List (Effect σ)) :=
  (BattleCast.cast service env fuel mirror st).map (fun r => (r.state, r.effects))

/-- `BattleCast::cast(IBattleState * battleState, vstd::RNG & rng)`: no reflection, no
recursion. -/
def BattleCast.castOnBattleState (service : SpellService σ) (self : BattleCast σ) (s : σ) :
    CastResult σ :=
  let self1 := self.stagePlaceholder
  let m := service.battleMechanics self1.spell self1
  { self := self1
    state := m.castOnBattleState s self1.target
    effects := [Effect.mechanicsCastOnBattleState self1 self1.target] }

/-- `BattleCast::applyEffects(env)`, a `const` member function: the behaviour is built from
the cast object as it is and is handed its `target` as it is. -/
def BattleCast.applyEffects (service : SpellService σ) (env : SpellCastEnvironment σ)
    (self : BattleCast σ) (s : σ) : CastResult σ :=
  let m := service.battleMechanics self.spell self
  { self := self
    state := m.applyEffects env s self.target
    effects := [Effect.mechanicsApplyEffects self self.target] }

/-- `BattleCast::applyEffectsForced(env)`, a `const` member function: the behaviour is built
from the cast object as it is and is handed its `target` as it is. -/
def BattleCast.applyEffectsForced (service : SpellService σ) (env : SpellCastEnvironment σ)
    (self : BattleCast σ) (s : σ) : CastResult σ :=
  let m := service.battleMechanics self.spell self
  { self := self
    state := m.applyEffectsForced env s self.target
    effects := [Effect.mechanicsApplyEffectsForced self self.target] }

/-- The result of `BattleCast::castIfPossible`: the returned flag and the state left. -/
structure CastIfPossibleResult (σ : Type) where
  returned : Bool
  self : BattleCast σ
  state : σ
  effects : List (Effect σ)

/-- `BattleCast::castIfPossible(env)`. -/
def BattleCast.castIfPossible (service : SpellService σ) (env : SpellCastEnvironment σ)
    (fuel : Nat) (self : BattleCast σ) (s : σ) : Option (CastIfPossibleResult σ) :=
  if service.canBeCast self.spell self.cb s self.mode self.caster then
    match BattleCast.cast service env fuel self s with
    | none => none
    | some r => some { returned := true, self := r.self, state := r.state, effects := r.effects }
  else
    some { returned := false, self := self, state := s, effects := [] }

/-! ## `ISpellMechanicsFactory::get` -/

/-- The factory classes `ISpellMechanicsFactory::get` chooses from. -/
inductive FactoryKind where
  | ConfigurableMechanicsFactory
  | FireWallMechanics
  | ForceFieldMechanics
  | LandMineMechanics
  | QuicksandMechanics
  | FallbackMechanicsFactory
  deriving DecidableEq, Repr

/-- A factory object: its class and the spell it was constructed for
(`ISpellMechanicsFactory::spell`). -/
structure ISpellMechanicsFactory where
  kind : FactoryKind
  spell : CSpell

/-- `ISpellMechanicsFactory::get`; `make_unique` yields a non-empty pointer. -/
def ISpellMechanicsFactory.get (s : CSpell) : Option ISpellMechanicsFactory :=
  if s.hasBattleEffects then
    some { kind := FactoryKind.ConfigurableMechanicsFactory, spell := s }
  else
    match s.id with
    | SpellID.FIRE_WALL => some { kind := FactoryKind.FireWallMechanics, spell := s }
    | SpellID.FORCE_FIELD => some { kind := FactoryKind.ForceFieldMechanics, spell := s }
    | SpellID.LAND_MINE => some { kind := FactoryKind.LandMineMechanics, spell := s }
    | SpellID.QUICKSAND => some { kind := FactoryKind.QuicksandMechanics, spell := s }
    | _ => some { kind := FactoryKind.FallbackMechanicsFactory, spell := s }

/-! ## `IAdventureSpellMechanics::createMechanics` -/

/-- The classes `IAdventureSpellMechanics::createMechanics` chooses from. -/
inductive AdventureMechanicsKind where
  | SummonBoatMechanics
  | ScuttleBoatMechanics
  | DimensionDoorMechanics
  | AdventureSpellMechanics
  | TownPortalMechanics
  | ViewEarthMechanics
  | ViewAirMechanics
  deriving DecidableEq, Repr

/-- An adventure-map behaviour object: its class and the spell it was constructed for
(`IAdventureSpellMechanics::owner`). -/
structure IAdventureSpellMechanics where
  kind : AdventureMechanicsKind
  owner : CSpell

/-- `IAdventureSpellMechanics::createMechanics`; `make_unique` yields a non-empty pointer,
the `default` label returns an empty one. -/
def IAdventureSpellMechanics.createMechanics (s : CSpell) : Option IAdventureSpellMechanics :=
  match s.id with
  | SpellID.SUMMON_BOAT => some { kind := AdventureMechanicsKind.SummonBoatMechanics, owner := s }
  | SpellID.SCUTTLE_BOAT =>
    some { kind := AdventureMechanicsKind.ScuttleBoatMechanics, owner := s }
  | SpellID.DIMENSION_DOOR =>
    some { kind := AdventureMechanicsKind.DimensionDoorMechanics, owner := s }
  | SpellID.FLY
  | SpellID.WATER_WALK
  | SpellID.VISIONS
  | SpellID.DISGUISE =>
    some { kind := AdventureMechanicsKind.AdventureSpellMechanics, owner := s }
  | SpellID.TOWN_PORTAL => some { kind := AdventureMechanicsKind.TownPortalMechanics, owner := s }
  | SpellID.VIEW_EARTH => some { kind := AdventureMechanicsKind.ViewEarthMechanics, owner := s }
  | SpellID.VIEW_AIR => some { kind := AdventureMechanicsKind.ViewAirMechanics, owner := s }
  | _ => none

/-! ## `FallbackMechanicsFactory`: the effects synthesised from the legacy tables -/

/-- Modelled from the spec: `GameConstants::SPELL_SCHOOL_LEVELS` is defined outside the
sources; the spec speaks of "four spell-school proficiency tiers", the levels 0 to 3. -/
def GameConstants.SPELL_SCHOOL_LEVELS : Nat := 4

/-- The effect objects the fallback factory constructs: `effects::Damage(level)`, default
constructed apart from its level, and `effects::Timed(level)` with its members `cumulative`
and `bonus` as assigned. -/
inductive effects.Effect where
  | Damage (level : Nat)
  | Timed (level : Nat) (cumulative : Bool) (bonus : List Bonus)
  deriving DecidableEq, Repr

/-- One call `effects->add(name, effect, level)`. -/
structure effects.Registration where
  name : String
  effect : effects.Effect
  level : Nat
  deriving DecidableEq, Repr

/-- The effect pipeline `effects::Effects`, as the registrations made, in order. -/
abbrev effects.Effects := List effects.Registration

/-- Modelled from the spec: `Effects::add(name, effect, level)` is defined outside the
sources; the spec says the factory "synthesizes" an effect into the pipeline: the
registration is recorded behind the earlier ones. -/
def effects.Effects.add (self : effects.Effects) (name : String) (effect : effects.Effect)
    (level : Nat) : effects.Effects :=
  self ++ [{ name := name, effect := effect, level := level }]

/-- The body of the `for` loop of `FallbackMechanicsFactory::FallbackMechanicsFactory` for one
`level`, applied to the member `effects` (here `pipeline`).  The `assert` on `battleEffects`
does not change what is registered.  The local `effect` starts empty and is reset by each of the two `if` blocks that applies, the later
one replacing the earlier one. -/
def FallbackMechanicsFactory.addLevel (s : CSpell) (level : Nat)
    (pipeline : effects.Effects) : effects.Effects :=
  let levelInfo := s.getLevelInfo level
  let effects1 :=
    if s.isOffensiveSpell then
      pipeline.add "directDamage" (effects.Effect.Damage level) level
    else pipeline
  let effect0 : Option effects.Effect := none
  let effect1 :=
    if !levelInfo.effects.isEmpty then
      some (effects.Effect.Timed level false levelInfo.effects)
    else effect0
  let effect2 :=
    if !levelInfo.cumulativeEffects.isEmpty then
      some (effects.Effect.Timed level true levelInfo.cumulativeEffects)
    else effect1
  match effect2 with
  | some effect => effects1.add "timed" effect level
  | none => effects1

/-- `FallbackMechanicsFactory::FallbackMechanicsFactory(const CSpell * s)`: the pipeline the
constructor leaves in its member `effects` (here `pipeline`), which starts empty, after the loop over the levels
`0 .. SPELL_SCHOOL_LEVELS - 1`. -/
def FallbackMechanicsFactory.create (s : CSpell) : effects.Effects :=
  (List.range GameConstants.SPELL_SCHOOL_LEVELS).foldl
    (fun pipeline level => FallbackMechanicsFactory.addLevel s level pipeline) []

/-- The registrations of a pipeline made at one level. -/
def effects.Effects.atLevel (self : effects.Effects) (level : Nat) : effects.Effects :=
  self.filter (fun r => r.level == level)

/-- What the specification expects the fallback factory to register at one level: a
"directDamage" effect if the spell is offensive, then a single "timed" effect that carries the
cumulative table (with `cumulative = true`) if that table is not empty, else the
non-cumulative table (with `cumulative = false`) if that one is not empty, else nothing. -/
def FallbackMechanicsFactory.expectedAtLevel (s : CSpell) (level : Nat) : effects.Effects :=
  (if s.isOffensiveSpell then
    [{ name := "directDamage", effect := effects.Effect.Damage level, level := level }]
   else [])
  ++ (if (s.getLevelInfo level).cumulativeEffects ≠ [] then
        [{ name := "timed"
           effect := effects.Effect.Timed level true (s.getLevelInfo level).cumulativeEffects
           level := level }]
      else if (s.getLevelInfo level).effects ≠ [] then
        [{ name := "timed"
           effect := effects.Effect.Timed level false (s.getLevelInfo level).effects
           level := level }]
      else [])

/-! ## Sample inputs -/

/-- A spell without custom battle effects whose level-table default is
`10 * basePowerMultiplier + 5 * levelPowerMultiplier - 40`. -/
def sampleSpell : CSpell where
  id := SpellID.AGE
  hasBattleEffects := false
  calculateRawEffectValue := fun _ basePowerMultiplier levelPowerMultiplier =>
    10 * basePowerMultiplier + 5 * levelPowerMultiplier - 40
  isOffensiveSpell := false
  getLevelInfo := fun _ => { effects := [], cumulativeEffects := [] }
  getTargetType := AimType.CREATURE
  targetInfo := fun _ _ => { smart := false, massive := false }

/-- A caster owned by player `owner` answering every capability query with a constant; it is
not a hero, and its name is the replacement text "caster". -/
def constantCaster (owner : Nat) (schoolLevel effectLevel power enchant value : Int) : Caster where
  getOwner := owner
  getSpellSchoolLevel := fun _ _ => schoolLevel
  getEffectLevel := fun _ _ => effectLevel
  getEffectPower := fun _ _ => power
  getEnchantPower := fun _ _ => enchant
  getEffectValue := fun _ _ => value
  getCasterName := fun text => text ++ [MetaStringItem.addReplacementText "caster"]
  asHero := none

/-- A battle context over the one-point battle state, without stacks. -/
def emptyBattle : CBattleInfoCallback Unit where
  battleGetAllStacks := fun _ => []

/-- A hero cast without any override by a caster answering school level 5, effect level -2,
power 7, enchant power -1 and magnitude 0. -/
def plainEvent : BattleCast Unit :=
  BattleCast.create emptyBattle (constantCaster 0 5 (-2) 7 (-1) 0) Mode.HERO sampleSpell

/-- Two events that carry the same five overrides (range level 2, effect level 1, power 4,
duration 6, magnitude 50) and differ in caster and mode. -/
def overriddenEventA : BattleCast Unit :=
  { plainEvent with rangeLevel := some 2, effectLevel := some 1, effectPower := some 4,
                    effectDuration := some 6, effectValue := some 50 }

/-- See `overriddenEventA`. -/
def overriddenEventB : BattleCast Unit :=
  { BattleCast.create emptyBattle (constantCaster 1 0 3 (-9) 100 77) Mode.AFTER_ATTACK sampleSpell
    with rangeLevel := some 2, effectLevel := some 1, effectPower := some 4,
         effectDuration := some 6, effectValue := some 50 }

/-- A hero cast without any override by a caster whose `getEffectValue` answers -5. -/
def negativeValueEvent : BattleCast Unit :=
  BattleCast.create emptyBattle (constantCaster 0 1 1 2 2 (-5)) Mode.HERO sampleSpell

/-- A hero cast without any override by a caster whose `getEffectValue` answers 0 and whose
power is 2, so that the level-table default of `sampleSpell` is `10 * 2 + 5 - 40 = -15`. -/
def negativeDefaultEvent : BattleCast Unit :=
  BattleCast.create emptyBattle (constantCaster 0 1 1 2 2 0) Mode.HERO sampleSpell

/-- A hero cast without any override by a caster whose `getEffectValue` answers 30. -/
def positiveValueEvent : BattleCast Unit :=
  BattleCast.create emptyBattle (constantCaster 0 1 1 2 2 30) Mode.HERO sampleSpell

/-- A behaviour with two slots: slot 0 offers units 1 and 2; after unit 1 slot 1 offers
hexes 10 and 11, after unit 2 it offers hex 20 only.  Its `cast` reflects nothing. -/
def twoSlotMechanics : Mechanics Unit where
  getTargetTypes := [AimType.CREATURE, AimType.LOCATION]
  getPossibleDestinations := fun index _ current =>
    if index = 0 then [Destination.ofUnit 1, Destination.ofUnit 2]
    else if current = [Destination.ofUnit 1] then
      [Destination.ofHex ⟨10⟩, Destination.ofHex ⟨11⟩]
    else [Destination.ofHex ⟨20⟩]
  cast := fun _ s _ => (s, [])
  castOnBattleState := fun s _ => s
  applyEffects := fun _ s _ => s
  applyEffectsForced := fun _ s _ => s

/-- A behaviour with one slot offering hexes 4 and 5. -/
def oneSlotMechanics : Mechanics Unit where
  getTargetTypes := [AimType.LOCATION]
  getPossibleDestinations := fun _ _ _ => [Destination.ofHex ⟨4⟩, Destination.ofHex ⟨5⟩]
  cast := fun _ s _ => (s, [])
  castOnBattleState := fun s _ => s
  applyEffects := fun _ s _ => s
  applyEffectsForced := fun _ s _ => s

/-- A behaviour with three slots, each offering hex 4. -/
def threeSlotMechanics : Mechanics Unit where
  getTargetTypes := [AimType.LOCATION, AimType.LOCATION, AimType.LOCATION]
  getPossibleDestinations := fun _ _ _ => [Destination.ofHex ⟨4⟩]
  cast := fun _ s _ => (s, [])
  castOnBattleState := fun s _ => s
  applyEffects := fun _ s _ => s
  applyEffectsForced := fun _ s _ => s

/-- A spell service that hands out the given behaviour for every event and lets every cast
through. -/
def constantService (m : Mechanics Unit) : SpellService Unit where
  battleMechanics := fun _ _ => m
  canBeCast := fun _ _ _ _ _ => true
  canBeCastAt := fun _ _ _ _ _ _ => true

/-- An environment whose random generator always picks the first candidate. -/
def headEnvironment : SpellCastEnvironment Unit where
  nextItem := fun container h s =>
    (⟨container.head (fun e => by simp [e] at h), List.head_mem _⟩, s)

/-- A stack of player `owner` standing on hex `position`, a valid target, casting like
`constantCaster owner 1 1 2 2 0`. -/
def sampleStack (owner : Nat) (position : Int) : CStack where
  owner := owner
  getPosition := ⟨position⟩
  isValidTarget := fun _ => true
  asCaster := constantCaster owner 1 1 2 2 0

/-- A battle with two stacks of player 0 (on hexes 17 and 18) and one of player 1 (on hex
90). -/
def sampleBattle : CBattleInfoCallback Unit where
  battleGetAllStacks := fun _ => [sampleStack 0 17, sampleStack 0 18, sampleStack 1 90]

/-- A behaviour whose `cast` always reports the same two reflecting units of player 1. -/
def reflectingMechanics : Mechanics Unit where
  getTargetTypes := [AimType.CREATURE]
  getPossibleDestinations := fun _ _ _ => [Destination.ofUnit 1]
  cast := fun _ s _ => (s, [sampleStack 1 90, sampleStack 1 91])
  castOnBattleState := fun s _ => s
  applyEffects := fun _ s _ => s
  applyEffectsForced := fun _ s _ => s

/-- A hero cast of player 0 in `sampleBattle`, aimed at unit 3. -/
def heroEvent : BattleCast Unit :=
  { BattleCast.create sampleBattle (constantCaster 0 1 1 2 2 0) Mode.HERO sampleSpell
    with target := [Destination.ofUnit 3] }

/-- A cast in mode `MAGIC_MIRROR` by a stack of player 1 in `sampleBattle`, aimed at hex
17. -/
def mirrorEvent : BattleCast Unit :=
  (BattleCast.reflect heroEvent (sampleStack 1 90).asCaster).aimToHex ⟨17⟩

/-- A spell service that hands out the given behaviour and refuses every cast. -/
def refusingService (m : Mechanics Unit) : SpellService Unit where
  battleMechanics := fun _ _ => m
  canBeCast := fun _ _ _ _ _ => false
  canBeCastAt := fun _ _ _ _ _ _ => false

/-- The original of the reflection that loses its range level: `heroEvent` after
`setRangeLevel(3)`. -/
def rangeOverrideEvent : BattleCast Unit :=
  heroEvent.setRangeLevel 3

/-- A behaviour that changes nothing and reflects nothing. -/
def idleMechanics : Mechanics Unit where
  getTargetTypes := [AimType.CREATURE]
  getPossibleDestinations := fun _ _ _ => []
  cast := fun _ s _ => (s, [])
  castOnBattleState := fun s _ => s
  applyEffects := fun _ s _ => s
  applyEffectsForced := fun _ s _ => s

/-- The spell service of the regression test `issue2765`: the spell can be cast
(`canBeCast` holds) although it cannot be cast at any hex (`canBeCastAt` fails). -/
def issue2765Service : SpellService Unit where
  battleMechanics := fun _ _ => idleMechanics
  canBeCast := fun _ _ _ _ _ => true
  canBeCastAt := fun _ _ _ _ _ _ => false

/-- The cast of the regression test `issue2765`: the spell Age after an attack, aimed at the
defending war machine (unit 2, on hex 90), with `setSpellLevel(3)`. -/
def issue2765Event : BattleCast Unit :=
  { BattleCast.create sampleBattle (sampleStack 0 17).asCaster Mode.AFTER_ATTACK sampleSpell
    with target := [Destination.ofUnit 2] }.setSpellLevel 3

/-- The spell Fire Wall with a custom battle-effect configuration. -/
def configuredFireWall : CSpell :=
  { sampleSpell with id := SpellID.FIRE_WALL, hasBattleEffects := true }

/-- The spell Fire Wall without a custom battle-effect configuration. -/
def legacyFireWall : CSpell :=
  { sampleSpell with id := SpellID.FIRE_WALL }

/-- A behaviour with two slots whose only first destination, unit 1, has no legal second
destination. -/
def deadEndMechanics : Mechanics Unit where
  getTargetTypes := [AimType.CREATURE, AimType.LOCATION]
  getPossibleDestinations := fun index _ _ => if index = 0 then [Destination.ofUnit 1] else []
  cast := fun _ s _ => (s, [])
  castOnBattleState := fun s _ => s
  applyEffects := fun _ s _ => s
  applyEffectsForced := fun _ s _ => s

/-- A hero cast of player 0 in `sampleBattle` without any staged destination. -/
def unaimedEvent : BattleCast Unit :=
  BattleCast.create sampleBattle (constantCaster 0 1 1 2 2 0) Mode.HERO sampleSpell

/-- A hero cast in `sampleBattle` by a caster of player 7, who owns no stack there, aimed at
unit 3. -/
def strangerEvent : BattleCast Unit :=
  { BattleCast.create sampleBattle (constantCaster 7 1 1 2 2 0) Mode.HERO sampleSpell
    with target := [Destination.ofUnit 3] }

/-- An offensive spell without custom battle effects and with empty legacy tables at every
level. -/
def offensiveSpell : CSpell :=
  { sampleSpell with isOffensiveSpell := true }

/-- A bonus to put into legacy tables: value `val` from an artifact. -/
def sampleBonus (val : Int) : Bonus :=
  { type := BonusType.other 0, val := val, source := BonusSource.ARTIFACT, sid := 0 }

/-- A spell that is not offensive whose legacy tables hold, at level 0, only a non-cumulative
bonus; at level 1, a non-cumulative and a cumulative bonus; and nothing at levels 2 and 3. -/
def timedSpell : CSpell :=
  { sampleSpell with
    getLevelInfo := fun level =>
      if level = 0 then { effects := [sampleBonus 1], cumulativeEffects := [] }
      else if level = 1 then { effects := [sampleBonus 2], cumulativeEffects := [sampleBonus 3] }
      else { effects := [], cumulativeEffects := [] } }

/-- A massive spell whose native aim type is a unit. -/
def massiveSpell : CSpell :=
  { sampleSpell with targetInfo := fun _ _ => { smart := false, massive := true } }

/-- A spell that is not massive and whose native aim type is an obstacle. -/
def obstacleSpell : CSpell :=
  { sampleSpell with getTargetType := AimType.OBSTACLE }

/-- A hero whose first `BLOCK_MAGIC_ABOVE` bonus is `b`. -/
def sampleHero (b : Option Bonus) : CGHeroInstance where
  getBonusLocalFirst := fun t => if t = BonusType.BLOCK_MAGIC_ABOVE then b else none

/-- A caster that is the hero `sampleHero b`; its name is the replacement text "hero". -/
def heroCaster (b : Option Bonus) : Caster :=
  { constantCaster 0 1 1 2 2 0 with
    getCasterName := fun text => text ++ [MetaStringItem.addReplacementText "hero"]
    asHero := some (sampleHero b) }

/-- The behaviour state built for a hero cast by `heroCaster b`. -/
def heroMechanics (b : Option Bonus) : BaseMechanics :=
  BaseMechanics.create (BattleCast.create emptyBattle (heroCaster b) Mode.HERO sampleSpell)

/-- The behaviour state built for a cast by a creature stack, which is not a hero. -/
def stackMechanics : BaseMechanics :=
  BaseMechanics.create
    (BattleCast.create emptyBattle (sampleStack 1 90).asCaster Mode.CREATURE_ACTIVE sampleSpell)

/-- A `BLOCK_MAGIC_ABOVE` bonus of value 2 from artifact 93. -/
def cloakBonus : Bonus :=
  { type := BonusType.BLOCK_MAGIC_ABOVE, val := 2, source := BonusSource.ARTIFACT, sid := 93 }

/-- A `BLOCK_MAGIC_ABOVE` bonus from the terrain overlay of cursed ground. -/
def cursedGroundBonus : Bonus :=
  { type := BonusType.BLOCK_MAGIC_ABOVE, val := 0, source := BonusSource.TERRAIN_OVERLAY,
    sid := BFieldType.CURSED_GROUND }

/-- A `BLOCK_MAGIC_ABOVE` bonus of value 3 from artifact 93. -/
def otherBlockBonus : Bonus :=
  { type := BonusType.BLOCK_MAGIC_ABOVE, val := 3, source := BonusSource.ARTIFACT, sid := 93 }

/-- A battle context over a counter as battle state, without stacks. -/
def countingBattle : CBattleInfoCallback Nat where
  battleGetAllStacks := fun _ => []

/-- A behaviour that leaves in the battle state the number of destinations it was handed. -/
def countingMechanics : Mechanics Nat where
  getTargetTypes := [AimType.CREATURE]
  getPossibleDestinations := fun _ _ _ => []
  cast := fun _ _ target => (target.length, [])
  castOnBattleState := fun _ target => target.length
  applyEffects := fun _ _ target => target.length
  applyEffectsForced := fun _ _ target => target.length

/-- A spell service that hands out `countingMechanics` and lets every cast through. -/
def countingService : SpellService Nat where
  battleMechanics := fun _ _ => countingMechanics
  canBeCast := fun _ _ _ _ _ => true
  canBeCastAt := fun _ _ _ _ _ _ => true

/-- An environment over the counter whose random generator picks the first candidate. -/
def countingEnvironment : SpellCastEnvironment Nat where
  nextItem := fun container h s =>
    (⟨container.head (fun e => by simp [e] at h), List.head_mem _⟩, s)

/-- A hero cast in `countingBattle` without any staged destination. -/
def countingEvent : BattleCast Nat :=
  BattleCast.create countingBattle (constantCaster 0 1 1 2 2 0) Mode.HERO sampleSpell

/-- A hero cast in `countingBattle` with unit 3 and hex 40 staged. -/
def countingStagedEvent : BattleCast Nat :=
  (countingEvent.aimToUnit (some 3)).1.aimToHex ⟨40⟩

/-- The spell Fly. -/
def flySpell : CSpell :=
  { sampleSpell with id := SpellID.FLY }

/-- The spell Disguise, with other tables than `flySpell`. -/
def disguiseSpell : CSpell :=
  { offensiveSpell with id := SpellID.DISGUISE }

/-! ## Theorems -/

/-! ### Parameter resolution -/

theorem vstd.abetween_eq_clamp (a : Int) : vstd.abetween a 0 3 = max 0 (min a 3) := by
  unfold vstd.abetween vstd.amin vstd.amax
  split_ifs <;> omega

theorem vstd.amax_eq_max (a b : Int) : vstd.amax a b = max a b := by
  unfold vstd.amax
  split_ifs <;> omega

theorem vstd.abetween_of_mem (a : Int) (h0 : 0 ≤ a) (h3 : a ≤ 3) : vstd.abetween a 0 3 = a := by
  unfold vstd.abetween vstd.amin vstd.amax
  split_ifs <;> omega

theorem vstd.amax_of_nonneg (a : Int) (h0 : 0 ≤ a) : vstd.amax a 0 = a := by
  unfold vstd.amax
  split_ifs <;> omega

/-- C1: when the cast event carries no spell-level, range-level, effect-level, power or
duration override, the `BaseMechanics` constructor resolves the range level to the caster's
`getSpellSchoolLevel` clamped into [0,3], the effect level to the caster's `getEffectLevel`
clamped into [0,3], the power to the caster's `getEffectPower` floored at 0 and the duration
to the caster's `getEnchantPower` floored at 0 (whatever the magnitude override is). -/
theorem C1_no_override_uses_caster (event : BattleCast σ)
    (hSpell : event.spellLvl = none) (hRange : event.rangeLevel = none)
    (hEffect : event.effectLevel = none) (hPower : event.effectPower = none)
    (hDuration : event.effectDuration = none) :
    (BaseMechanics.create event).getRangeLevel
        = max 0 (min (event.caster.getSpellSchoolLevel event.mode event.spell) 3)
    ∧ (BaseMechanics.create event).getEffectLevel
        = max 0 (min (event.caster.getEffectLevel event.mode event.spell) 3)
    ∧ (BaseMechanics.create event).getEffectPower
        = max (event.caster.getEffectPower event.mode event.spell) 0
    ∧ (BaseMechanics.create event).getEffectDuration
        = max (event.caster.getEnchantPower event.mode event.spell) 0 := by
  simp only [BaseMechanics.create, BaseMechanics.getRangeLevel, BaseMechanics.getEffectLevel,
    BaseMechanics.getEffectPower, BaseMechanics.getEffectDuration, BattleCast.getRangeLevel,
    BattleCast.getEffectLevel, BattleCast.getEffectPower, BattleCast.getEffectDuration,
    hSpell, hRange, hEffect, hPower, hDuration, Option.isSome_none, Bool.false_eq_true,
    if_false, vstd.abetween_eq_clamp, vstd.amax_eq_max, and_self]

/-- C1 at `plainEvent`: school level 5 resolves to 3, effect level -2 to 0, power 7 to 7 and
enchant power -1 to 0. -/
theorem C1_no_override_uses_caster_witness :
    (plainEvent.spellLvl = none ∧ plainEvent.rangeLevel = none ∧ plainEvent.effectLevel = none
      ∧ plainEvent.effectPower = none ∧ plainEvent.effectDuration = none)
    ∧ ((BaseMechanics.create plainEvent).getRangeLevel = max 0 (min 5 3)
      ∧ (BaseMechanics.create plainEvent).getEffectLevel = max 0 (min (-2) 3)
      ∧ (BaseMechanics.create plainEvent).getEffectPower = max 7 0
      ∧ (BaseMechanics.create plainEvent).getEffectDuration = max (-1) 0) :=
  ⟨⟨rfl, rfl, rfl, rfl, rfl⟩, C1_no_override_uses_caster plainEvent rfl rfl rfl rfl rfl⟩

theorem BattleCast.getRangeLevel_of_rangeLevel (event : BattleCast σ) (v : Int)
    (h : event.rangeLevel = some v) : event.getRangeLevel = some v := by
  simp [BattleCast.getRangeLevel, h]

theorem BattleCast.getEffectLevel_of_effectLevel (event : BattleCast σ) (v : Int)
    (h : event.effectLevel = some v) : event.getEffectLevel = some v := by
  simp [BattleCast.getEffectLevel, h]

theorem BaseMechanics.rangeLevel_of_getter (event : BattleCast σ) (v : Int)
    (h : event.getRangeLevel = some v) :
    (BaseMechanics.create event).getRangeLevel = vstd.abetween v 0 3 := by
  simp [BaseMechanics.create, BaseMechanics.getRangeLevel, h]

theorem BaseMechanics.effectLevel_of_getter (event : BattleCast σ) (v : Int)
    (h : event.getEffectLevel = some v) :
    (BaseMechanics.create event).getEffectLevel = vstd.abetween v 0 3 := by
  simp [BaseMechanics.create, BaseMechanics.getEffectLevel, h]

theorem BaseMechanics.effectPower_of_override (event : BattleCast σ) (v : Int)
    (h : event.effectPower = some v) :
    (BaseMechanics.create event).getEffectPower = vstd.amax v 0 := by
  simp [BaseMechanics.create, BaseMechanics.getEffectPower, BattleCast.getEffectPower, h]

theorem BaseMechanics.effectDuration_of_override (event : BattleCast σ) (v : Int)
    (h : event.effectDuration = some v) :
    (BaseMechanics.create event).getEffectDuration = vstd.amax v 0 := by
  simp [BaseMechanics.create, BaseMechanics.getEffectDuration, BattleCast.getEffectDuration, h]

theorem BaseMechanics.effectValue_of_override (event : BattleCast σ) (v : Int)
    (h : event.effectValue = some v) :
    (BaseMechanics.create event).getEffectValue = vstd.amax v 0 := by
  simp [BaseMechanics.create, BaseMechanics.getEffectValue, BattleCast.getEffectValue, h]

/-- C2: for each of the five parameters separately, if two cast events (with any casters,
spells, modes and other fields) carry the same explicit override `v` for that parameter,
the `BaseMechanics` constructor resolves the same value for both, namely `v` clamped into
[0,3] for the two levels and `v` floored at 0 for power, duration and magnitude; that value
is `v` itself when `v` already lies in the legal range. -/
theorem C2_override_takes_precedence (eventA eventB : BattleCast σ) (v : Int) :
    (eventA.rangeLevel = some v → eventB.rangeLevel = some v →
      (BaseMechanics.create eventA).getRangeLevel = (BaseMechanics.create eventB).getRangeLevel
      ∧ (BaseMechanics.create eventA).getRangeLevel = max 0 (min v 3)
      ∧ (0 ≤ v → v ≤ 3 → (BaseMechanics.create eventA).getRangeLevel = v))
    ∧ (eventA.effectLevel = some v → eventB.effectLevel = some v →
      (BaseMechanics.create eventA).getEffectLevel = (BaseMechanics.create eventB).getEffectLevel
      ∧ (BaseMechanics.create eventA).getEffectLevel = max 0 (min v 3)
      ∧ (0 ≤ v → v ≤ 3 → (BaseMechanics.create eventA).getEffectLevel = v))
    ∧ (eventA.effectPower = some v → eventB.effectPower = some v →
      (BaseMechanics.create eventA).getEffectPower = (BaseMechanics.create eventB).getEffectPower
      ∧ (BaseMechanics.create eventA).getEffectPower = max v 0
      ∧ (0 ≤ v → (BaseMechanics.create eventA).getEffectPower = v))
    ∧ (eventA.effectDuration = some v → eventB.effectDuration = some v →
      (BaseMechanics.create eventA).getEffectDuration
        = (BaseMechanics.create eventB).getEffectDuration
      ∧ (BaseMechanics.create eventA).getEffectDuration = max v 0
      ∧ (0 ≤ v → (BaseMechanics.create eventA).getEffectDuration = v))
    ∧ (eventA.effectValue = some v → eventB.effectValue = some v →
      (BaseMechanics.create eventA).getEffectValue = (BaseMechanics.create eventB).getEffectValue
      ∧ (BaseMechanics.create eventA).getEffectValue = max v 0
      ∧ (0 ≤ v → (BaseMechanics.create eventA).getEffectValue = v)) := by
  refine ⟨?_, ?_, ?_, ?_, ?_⟩
  · intro hA hB
    have eA := BaseMechanics.rangeLevel_of_getter eventA v
      (BattleCast.getRangeLevel_of_rangeLevel eventA v hA)
    have eB := BaseMechanics.rangeLevel_of_getter eventB v
      (BattleCast.getRangeLevel_of_rangeLevel eventB v hB)
    refine ⟨eA.trans eB.symm, eA.trans (vstd.abetween_eq_clamp v), fun h0 h3 => ?_⟩
    exact eA.trans (vstd.abetween_of_mem v h0 h3)
  · intro hA hB
    have eA := BaseMechanics.effectLevel_of_getter eventA v
      (BattleCast.getEffectLevel_of_effectLevel eventA v hA)
    have eB := BaseMechanics.effectLevel_of_getter eventB v
      (BattleCast.getEffectLevel_of_effectLevel eventB v hB)
    refine ⟨eA.trans eB.symm, eA.trans (vstd.abetween_eq_clamp v), fun h0 h3 => ?_⟩
    exact eA.trans (vstd.abetween_of_mem v h0 h3)
  · intro hA hB
    have eA := BaseMechanics.effectPower_of_override eventA v hA
    have eB := BaseMechanics.effectPower_of_override eventB v hB
    exact ⟨eA.trans eB.symm, eA.trans (vstd.amax_eq_max v 0),
      fun h0 => eA.trans (vstd.amax_of_nonneg v h0)⟩
  · intro hA hB
    have eA := BaseMechanics.effectDuration_of_override eventA v hA
    have eB := BaseMechanics.effectDuration_of_override eventB v hB
    exact ⟨eA.trans eB.symm, eA.trans (vstd.amax_eq_max v 0),
      fun h0 => eA.trans (vstd.amax_of_nonneg v h0)⟩
  · intro hA hB
    have eA := BaseMechanics.effectValue_of_override eventA v hA
    have eB := BaseMechanics.effectValue_of_override eventB v hB
    exact ⟨eA.trans eB.symm, eA.trans (vstd.amax_eq_max v 0),
      fun h0 => eA.trans (vstd.amax_of_nonneg v h0)⟩

/-- C2 at `overriddenEventA` and `overriddenEventB`, whose casters answer every query
differently: each of the five overrides (2, 1, 4, 6, 50) lies in its legal range and is
resolved to itself, equally for both events. -/
theorem C2_override_takes_precedence_witness :
    ((BaseMechanics.create overriddenEventA).getRangeLevel
        = (BaseMechanics.create overriddenEventB).getRangeLevel
      ∧ (BaseMechanics.create overriddenEventA).getRangeLevel = 2)
    ∧ ((BaseMechanics.create overriddenEventA).getEffectLevel
        = (BaseMechanics.create overriddenEventB).getEffectLevel
      ∧ (BaseMechanics.create overriddenEventA).getEffectLevel = 1)
    ∧ ((BaseMechanics.create overriddenEventA).getEffectPower
        = (BaseMechanics.create overriddenEventB).getEffectPower
      ∧ (BaseMechanics.create overriddenEventA).getEffectPower = 4)
    ∧ ((BaseMechanics.create overriddenEventA).getEffectDuration
        = (BaseMechanics.create overriddenEventB).getEffectDuration
      ∧ (BaseMechanics.create overriddenEventA).getEffectDuration = 6)
    ∧ ((BaseMechanics.create overriddenEventA).getEffectValue
        = (BaseMechanics.create overriddenEventB).getEffectValue
      ∧ (BaseMechanics.create overriddenEventA).getEffectValue = 50) :=
  ⟨⟨((C2_override_takes_precedence overriddenEventA overriddenEventB 2).1 rfl rfl).1,
    ((C2_override_takes_precedence overriddenEventA overriddenEventB 2).1 rfl rfl).2.2
      (by decide) (by decide)⟩,
   ⟨((C2_override_takes_precedence overriddenEventA overriddenEventB 1).2.1 rfl rfl).1,
    ((C2_override_takes_precedence overriddenEventA overriddenEventB 1).2.1 rfl rfl).2.2
      (by decide) (by decide)⟩,
   ⟨((C2_override_takes_precedence overriddenEventA overriddenEventB 4).2.2.1 rfl rfl).1,
    ((C2_override_takes_precedence overriddenEventA overriddenEventB 4).2.2.1 rfl rfl).2.2
      (by decide)⟩,
   ⟨((C2_override_takes_precedence overriddenEventA overriddenEventB 6).2.2.2.1 rfl rfl).1,
    ((C2_override_takes_precedence overriddenEventA overriddenEventB 6).2.2.2.1 rfl rfl).2.2
      (by decide)⟩,
   ⟨((C2_override_takes_precedence overriddenEventA overriddenEventB 50).2.2.2.2 rfl rfl).1,
    ((C2_override_takes_precedence overriddenEventA overriddenEventB 50).2.2.2.2 rfl rfl).2.2
      (by decide)⟩⟩

/-- C3, as stated, fails: the magnitude is floored at 0 after it is resolved.  At
`negativeValueEvent` there is no magnitude override and the caster supplies the non-zero
value -5, yet the resolved magnitude is 0; at `negativeDefaultEvent` the caster supplies 0
and the level-table default for the resolved effect level 1 and power 2 is -15, yet the
resolved magnitude is 0. -/
theorem C3_counterexample :
    (negativeValueEvent.effectValue = none
      ∧ negativeValueEvent.caster.getEffectValue negativeValueEvent.mode negativeValueEvent.spell
          = -5
      ∧ (BaseMechanics.create negativeValueEvent).getEffectValue = 0
      ∧ (BaseMechanics.create negativeValueEvent).getEffectValue
          ≠ negativeValueEvent.caster.getEffectValue negativeValueEvent.mode
              negativeValueEvent.spell)
    ∧ (negativeDefaultEvent.effectValue = none
      ∧ negativeDefaultEvent.caster.getEffectValue negativeDefaultEvent.mode
          negativeDefaultEvent.spell = 0
      ∧ negativeDefaultEvent.spell.calculateRawEffectValue
          (BaseMechanics.create negativeDefaultEvent).getEffectLevel
          (BaseMechanics.create negativeDefaultEvent).getEffectPower 1 = -15
      ∧ (BaseMechanics.create negativeDefaultEvent).getEffectValue = 0
      ∧ (BaseMechanics.create negativeDefaultEvent).getEffectValue
          ≠ negativeDefaultEvent.spell.calculateRawEffectValue
              (BaseMechanics.create negativeDefaultEvent).getEffectLevel
              (BaseMechanics.create negativeDefaultEvent).getEffectPower 1) := by
  refine ⟨⟨rfl, rfl, ?_, ?_⟩, ⟨rfl, rfl, ?_, ?_, ?_⟩⟩ <;> decide

/-- C3, amended: for every cast event without a magnitude override, the resolved magnitude
is the level-table default `calculateRawEffectValue(resolved effect level, resolved power,
1)` floored at 0 when the caster's `getEffectValue` is zero, and the caster-supplied value
floored at 0 when it is non-zero; so it is the caster-supplied value exactly when that value
is positive, and the level-table default exactly when that default is not negative. -/
theorem C3_magnitude_resolution (event : BattleCast σ) (hValue : event.effectValue = none) :
    (event.caster.getEffectValue event.mode event.spell = 0 →
      (BaseMechanics.create event).getEffectValue
        = max (event.spell.calculateRawEffectValue (BaseMechanics.create event).getEffectLevel
            (BaseMechanics.create event).getEffectPower 1) 0)
    ∧ (event.caster.getEffectValue event.mode event.spell ≠ 0 →
      (BaseMechanics.create event).getEffectValue
        = max (event.caster.getEffectValue event.mode event.spell) 0)
    ∧ (0 < event.caster.getEffectValue event.mode event.spell →
      (BaseMechanics.create event).getEffectValue
        = event.caster.getEffectValue event.mode event.spell)
    ∧ (event.caster.getEffectValue event.mode event.spell = 0 →
      0 ≤ event.spell.calculateRawEffectValue (BaseMechanics.create event).getEffectLevel
            (BaseMechanics.create event).getEffectPower 1 →
      (BaseMechanics.create event).getEffectValue
        = event.spell.calculateRawEffectValue (BaseMechanics.create event).getEffectLevel
            (BaseMechanics.create event).getEffectPower 1) := by
  have key : (BaseMechanics.create event).getEffectValue
      = vstd.amax (if event.caster.getEffectValue event.mode event.spell = 0 then
          event.spell.calculateRawEffectValue (BaseMechanics.create event).getEffectLevel
            (BaseMechanics.create event).getEffectPower 1
        else event.caster.getEffectValue event.mode event.spell) 0 := by
    simp [BaseMechanics.create, BaseMechanics.getEffectValue, BaseMechanics.getEffectLevel,
      BaseMechanics.getEffectPower, BattleCast.getEffectValue, hValue]
  refine ⟨fun h0 => ?_, fun hne => ?_, fun hpos => ?_, fun h0 hraw => ?_⟩
  · rw [key, if_pos h0, vstd.amax_eq_max]
  · rw [key, if_neg hne, vstd.amax_eq_max]
  · rw [key, if_neg (ne_of_gt hpos), vstd.amax_of_nonneg _ (le_of_lt hpos)]
  · rw [key, if_pos h0, vstd.amax_of_nonneg _ hraw]

/-- C3 amended, at `positiveValueEvent` (no magnitude override, caster value 30): the
resolved magnitude is 30. -/
theorem C3_magnitude_resolution_witness :
    positiveValueEvent.effectValue = none
    ∧ (BaseMechanics.create positiveValueEvent).getEffectValue = 30 :=
  ⟨rfl, (C3_magnitude_resolution positiveValueEvent rfl).2.2.1 (by decide)⟩

/-! ### Target enumeration -/

theorem findPotentialTargetsLoop_one (m : Mechanics σ) (type0 : AimType) :
    findPotentialTargetsLoop m 0 [type0] { previous := [], next := [], queries := [] }
      = { previous := []
          next := (m.getPossibleDestinations 0 type0 []).map (fun d0 => [d0])
          queries := [⟨0, type0, []⟩] } := by
  simp [findPotentialTargetsLoop, findPotentialTargetsStep]

theorem findPotentialTargetsLoop_two (m : Mechanics σ) (type0 type1 : AimType) :
    (findPotentialTargetsLoop m 0 [type0, type1]
        { previous := [], next := [], queries := [] }).next
      = (m.getPossibleDestinations 0 type0 []).flatMap (fun d0 =>
          (m.getPossibleDestinations 1 type1 [d0]).map (fun d1 => [d0, d1]))
    ∧ (findPotentialTargetsLoop m 0 [type0, type1]
        { previous := [], next := [], queries := [] }).queries
      = ⟨0, type0, []⟩ :: (m.getPossibleDestinations 0 type0 []).map
          (fun d0 => ⟨1, type1, [d0]⟩) := by
  cases h : m.getPossibleDestinations 0 type0 [] with
  | nil => simp [findPotentialTargetsLoop, findPotentialTargetsStep, h]
  | cons d ds =>
    simp [findPotentialTargetsLoop, findPotentialTargetsStep, h, List.flatMap_map]

/-- C4: for a behaviour with one or two target-type slots, `findPotentialTargets` returns the
sequential enumeration, in query order: for one slot the one-element sequences `[d0]` with
`d0` from `getPossibleDestinations(0, type0, [])`; for two slots the pairs `[d0, d1]` with
`d0` from `getPossibleDestinations(0, type0, [])` and `d1` from
`getPossibleDestinations(1, type1, [d0])`.  For two slots a pair is returned exactly when its
first destination is legal at slot 0 and its second is legal at slot 1 given that first
one, and nothing but such pairs is returned.  The queries made are the one for slot 0 and then
one per first destination for slot 1. -/
theorem C4_findPotentialTargets_sequential (service : SpellService σ) (self : BattleCast σ)
    (type0 type1 : AimType) :
    ((service.battleMechanics self.spell self).getTargetTypes = [type0] →
      (self.findPotentialTargets service).targets
        = ((service.battleMechanics self.spell self).getPossibleDestinations 0 type0 []).map
            (fun d0 => [d0])
      ∧ (self.findPotentialTargets service).queries = [⟨0, type0, []⟩])
    ∧ ((service.battleMechanics self.spell self).getTargetTypes = [type0, type1] →
      (self.findPotentialTargets service).targets
        = ((service.battleMechanics self.spell self).getPossibleDestinations 0 type0 []).flatMap
            (fun d0 =>
              ((service.battleMechanics self.spell self).getPossibleDestinations 1 type1 [d0]).map
                (fun d1 => [d0, d1]))
      ∧ (self.findPotentialTargets service).queries
        = ⟨0, type0, []⟩ ::
            ((service.battleMechanics self.spell self).getPossibleDestinations 0 type0 []).map
              (fun d0 => ⟨1, type1, [d0]⟩)
      ∧ (∀ d0 d1 : Destination, [d0, d1] ∈ (self.findPotentialTargets service).targets ↔
          d0 ∈ (service.battleMechanics self.spell self).getPossibleDestinations 0 type0 []
          ∧ d1 ∈ (service.battleMechanics self.spell self).getPossibleDestinations 1 type1 [d0])
      ∧ (∀ t ∈ (self.findPotentialTargets service).targets, ∃ d0 d1 : Destination,
          t = [d0, d1]
          ∧ d0 ∈ (service.battleMechanics self.spell self).getPossibleDestinations 0 type0 []
          ∧ d1 ∈ (service.battleMechanics self.spell self).getPossibleDestinations 1 type1
              [d0])) := by
  constructor
  · intro h
    simp [BattleCast.findPotentialTargets, h, findPotentialTargetsLoop_one]
  · intro h
    have hT : (self.findPotentialTargets service).targets
        = ((service.battleMechanics self.spell self).getPossibleDestinations 0 type0 []).flatMap
            (fun d0 =>
              ((service.battleMechanics self.spell self).getPossibleDestinations 1 type1 [d0]).map
                (fun d1 => [d0, d1])) := by
      simp [BattleCast.findPotentialTargets, h, (findPotentialTargetsLoop_two _ type0 type1).1]
    have hQ : (self.findPotentialTargets service).queries
        = ⟨0, type0, []⟩ ::
            ((service.battleMechanics self.spell self).getPossibleDestinations 0 type0 []).map
              (fun d0 => ⟨1, type1, [d0]⟩) := by
      simp [BattleCast.findPotentialTargets, h, (findPotentialTargetsLoop_two _ type0 type1).2]
    refine ⟨hT, hQ, ?_, ?_⟩
    · intro d0 d1
      rw [hT]
      simp only [List.mem_flatMap, List.mem_map]
      constructor
      · rintro ⟨a, ha, b, hb, hab⟩
        simp only [List.cons.injEq, and_true] at hab
        obtain ⟨rfl, rfl⟩ := hab
        exact ⟨ha, hb⟩
      · rintro ⟨h0, h1⟩
        exact ⟨d0, h0, d1, h1, rfl⟩
    · intro t ht
      rw [hT] at ht
      simp only [List.mem_flatMap, List.mem_map] at ht
      obtain ⟨a, ha, b, hb, hab⟩ := ht
      exact ⟨a, b, hab.symm, ha, hb⟩

/-- C4 at the two-slot behaviour `twoSlotMechanics` and the one-slot behaviour
`oneSlotMechanics`: the three legal pairs, respectively the two legal singletons, are
returned in query order. -/
theorem C4_findPotentialTargets_sequential_witness :
    (plainEvent.findPotentialTargets (constantService twoSlotMechanics)).targets
      = [[Destination.ofUnit 1, Destination.ofHex ⟨10⟩],
         [Destination.ofUnit 1, Destination.ofHex ⟨11⟩],
         [Destination.ofUnit 2, Destination.ofHex ⟨20⟩]]
    ∧ (plainEvent.findPotentialTargets (constantService oneSlotMechanics)).targets
      = [[Destination.ofHex ⟨4⟩], [Destination.ofHex ⟨5⟩]] :=
  ⟨((C4_findPotentialTargets_sequential (constantService twoSlotMechanics) plainEvent
      AimType.CREATURE AimType.LOCATION).2 rfl).1.trans (by decide),
   ((C4_findPotentialTargets_sequential (constantService oneSlotMechanics) plainEvent
      AimType.LOCATION AimType.LOCATION).1 rfl).1.trans (by decide)⟩

/-- C5: for a behaviour whose target-type sequence is empty or has more than two slots,
`findPotentialTargets` returns the empty list and makes no call of
`getPossibleDestinations`. -/
theorem C5_findPotentialTargets_unsupported (service : SpellService σ) (self : BattleCast σ)
    (h : (service.battleMechanics self.spell self).getTargetTypes = []
      ∨ 2 < (service.battleMechanics self.spell self).getTargetTypes.length) :
    (self.findPotentialTargets service).targets = []
    ∧ (self.findPotentialTargets service).queries = [] := by
  rcases h with h | h
  · simp [BattleCast.findPotentialTargets, h]
  · simp [BattleCast.findPotentialTargets, h]

/-- C5 at the three-slot behaviour `threeSlotMechanics`, every slot of which has a legal
destination: nothing is returned and nothing is queried. -/
theorem C5_findPotentialTargets_unsupported_witness :
    (2 < ((constantService threeSlotMechanics).battleMechanics plainEvent.spell
        plainEvent).getTargetTypes.length)
    ∧ ((plainEvent.findPotentialTargets (constantService threeSlotMechanics)).targets = []
      ∧ (plainEvent.findPotentialTargets (constantService threeSlotMechanics)).queries = []) :=
  ⟨by decide, C5_findPotentialTargets_unsupported (constantService threeSlotMechanics)
    plainEvent (Or.inr (by decide))⟩

/-! ### The cast pipeline -/

theorem BattleCast.stagePlaceholder_mode (self : BattleCast σ) :
    self.stagePlaceholder.mode = self.mode := by
  unfold BattleCast.stagePlaceholder BattleCast.aimToHex
  split_ifs <;> rfl

theorem reflectionLoop_of_mirror (env : SpellCastEnvironment σ)
    (nested : BattleCast σ → σ → Option (σ × List (Effect σ))) (self : BattleCast σ)
    (h : self.mode = Mode.MAGIC_MIRROR) (reflected : List CStack) (s : σ) :
    reflectionLoop env nested self reflected s
      = some (s, if reflected.isEmpty then []
                 else [Effect.logError "Magic mirror recurrence!"]) := by
  cases reflected <;> simp [reflectionLoop, h]

theorem BattleCast.cast_of_mirror (service : SpellService σ) (env : SpellCastEnvironment σ)
    (fuel : Nat) (self : BattleCast σ) (s : σ) (h : self.mode = Mode.MAGIC_MIRROR) :
    BattleCast.cast service env (fuel + 1) self s
      = some
          { self := self.stagePlaceholder
            state := ((service.battleMechanics self.stagePlaceholder.spell
              self.stagePlaceholder).cast env s self.stagePlaceholder.target).1
            effects := Effect.mechanicsCast self.stagePlaceholder self.stagePlaceholder.target ::
              (if ((service.battleMechanics self.stagePlaceholder.spell
                    self.stagePlaceholder).cast env s self.stagePlaceholder.target).2.isEmpty
               then [] else [Effect.logError "Magic mirror recurrence!"]) } := by
  have hm : self.stagePlaceholder.mode = Mode.MAGIC_MIRROR := by
    rw [BattleCast.stagePlaceholder_mode, h]
  simp only [BattleCast.cast, reflectionLoop_of_mirror env _ _ hm]

/-- C6: a cast whose trigger mode is `MAGIC_MIRROR` returns after a single activation (no
nested cast is needed, whatever the fuel), calls the behaviour's `cast` exactly once,
constructs and casts no reflected `BattleCast` and draws no random number; the battle state
it leaves is the one the behaviour's `cast` left; when the behaviour reports reflecting
units the only further effect is the logged error, whatever their number. -/
theorem C6_reflected_cast_never_reflects (service : SpellService σ)
    (env : SpellCastEnvironment σ) (fuel : Nat) (self : BattleCast σ) (s : σ)
    (h : self.mode = Mode.MAGIC_MIRROR) :
    ∃ r : CastResult σ, BattleCast.cast service env (fuel + 1) self s = some r
      ∧ r.effects.countP Effect.isMechanicsCast = 1
      ∧ r.effects.countP Effect.isMirrorCast = 0
      ∧ r.effects.countP Effect.isRandomDraw = 0
      ∧ r.state = ((service.battleMechanics self.stagePlaceholder.spell
          self.stagePlaceholder).cast env s self.stagePlaceholder.target).1
      ∧ (((service.battleMechanics self.stagePlaceholder.spell
            self.stagePlaceholder).cast env s self.stagePlaceholder.target).2 ≠ [] →
          r.effects = [Effect.mechanicsCast self.stagePlaceholder self.stagePlaceholder.target,
            Effect.logError "Magic mirror recurrence!"])
      ∧ (((service.battleMechanics self.stagePlaceholder.spell
            self.stagePlaceholder).cast env s self.stagePlaceholder.target).2 = [] →
          r.effects
            = [Effect.mechanicsCast self.stagePlaceholder self.stagePlaceholder.target]) := by
  refine ⟨_, BattleCast.cast_of_mirror service env fuel self s h, ?_, ?_, ?_, rfl, ?_, ?_⟩
  · by_cases hr : ((service.battleMechanics self.stagePlaceholder.spell
        self.stagePlaceholder).cast env s self.stagePlaceholder.target).2.isEmpty
    · simp [hr, Effect.isMechanicsCast, List.countP_cons]
    · simp [hr, Effect.isMechanicsCast, List.countP_cons]
  · by_cases hr : ((service.battleMechanics self.stagePlaceholder.spell
        self.stagePlaceholder).cast env s self.stagePlaceholder.target).2.isEmpty
    · simp [hr, Effect.isMirrorCast, List.countP_cons]
    · simp [hr, Effect.isMirrorCast, List.countP_cons]
  · by_cases hr : ((service.battleMechanics self.stagePlaceholder.spell
        self.stagePlaceholder).cast env s self.stagePlaceholder.target).2.isEmpty
    · simp [hr, Effect.isRandomDraw, List.countP_cons]
    · simp [hr, Effect.isRandomDraw, List.countP_cons]
  · intro hne
    have hr : ((service.battleMechanics self.stagePlaceholder.spell
        self.stagePlaceholder).cast env s self.stagePlaceholder.target).2.isEmpty = false := by
      simpa [List.isEmpty_iff] using hne
    simp [hr]
  · intro he
    simp [he]

/-- C6 at `mirrorEvent`, whose behaviour reports two reflecting units: one activation
suffices, the behaviour is called once, no reflected cast is made and no number drawn. -/
theorem C6_reflected_cast_never_reflects_witness :
    mirrorEvent.mode = Mode.MAGIC_MIRROR
    ∧ ∃ r : CastResult Unit,
      BattleCast.cast (constantService reflectingMechanics) headEnvironment 1 mirrorEvent ()
        = some r
      ∧ r.effects.countP Effect.isMechanicsCast = 1
      ∧ r.effects.countP Effect.isMirrorCast = 0
      ∧ r.effects.countP Effect.isRandomDraw = 0 :=
  ⟨rfl,
   (C6_reflected_cast_never_reflects (constantService reflectingMechanics) headEnvironment 0
      mirrorEvent () rfl).imp (fun _ hr => ⟨hr.1, hr.2.1, hr.2.2.1, hr.2.2.2.1⟩)⟩

theorem reflectionLoop_congr (env : SpellCastEnvironment σ)
    (nested1 nested2 : BattleCast σ → σ → Option (σ × List (Effect σ))) (self : BattleCast σ)
    (h : ∀ mirror st, mirror.mode = Mode.MAGIC_MIRROR → nested1 mirror st = nested2 mirror st)
    (reflected : List CStack) (s : σ) :
    reflectionLoop env nested1 self reflected s = reflectionLoop env nested2 self reflected s := by
  induction reflected generalizing s with
  | nil => simp [reflectionLoop]
  | cons attackedCre rest ih =>
    simp only [reflectionLoop]
    split_ifs with hm hne
    · rfl
    · rw [h _ _ rfl]
      cases hres : nested2 _ _ with
      | none => rfl
      | some res => simp only [ih]
    · exact ih s

theorem reflectionLoop_bounded (env : SpellCastEnvironment σ)
    (nested : BattleCast σ → σ → Option (σ × List (Effect σ))) (self : BattleCast σ)
    (hn : ∀ mirror st, mirror.mode = Mode.MAGIC_MIRROR →
      ∃ st1 inner, nested mirror st = some (st1, inner)
        ∧ inner.countP Effect.isMechanicsCast = 1 ∧ inner.countP Effect.isMirrorCast = 0)
    (reflected : List CStack) (s : σ) :
    ∃ s1 effects, reflectionLoop env nested self reflected s = some (s1, effects)
      ∧ effects.countP Effect.isMechanicsCast ≤ reflected.length
      ∧ effects.countP Effect.isMirrorCast ≤ reflected.length
      ∧ effects.countP Effect.isMechanicsCast = effects.countP Effect.isMirrorCast
      ∧ ∀ mirror, Effect.mirrorCast mirror ∈ effects → mirror.mode = Mode.MAGIC_MIRROR := by
  induction reflected generalizing s with
  | nil => exact ⟨s, [], by simp [reflectionLoop]⟩
  | cons attackedCre rest ih =>
    simp only [reflectionLoop]
    split_ifs with hm hne
    · exact ⟨s, _, rfl, by simp [Effect.isMechanicsCast, List.countP_cons],
        by simp [Effect.isMirrorCast, List.countP_cons],
        by simp [Effect.isMirrorCast, Effect.isMechanicsCast, List.countP_cons],
        by simp⟩
    · obtain ⟨st1, inner, hnested, hc1, hc2⟩ :=
        hn ((BattleCast.reflect self attackedCre.asCaster).aimToHex
          (env.nextItem _ hne s).1.val.getPosition) (env.nextItem _ hne s).2 rfl
      rw [hnested]
      obtain ⟨s3, later, hloop, hl1, hl2, hl3, hl4⟩ := ih st1
      simp only [hloop]
      refine ⟨s3, _, rfl, ?_, ?_, ?_, ?_⟩
      · simp only [List.countP_cons, List.countP_append, Effect.isMechanicsCast, hc1,
          List.length_cons]
        simp
        omega
      · simp only [List.countP_cons, List.countP_append, Effect.isMirrorCast, hc2,
          List.length_cons]
        simp
        omega
      · simp only [List.countP_cons, List.countP_append, Effect.isMechanicsCast,
          Effect.isMirrorCast, hc1, hc2]
        simp
        omega
      · intro mirror hmem
        simp only [List.mem_cons, List.mem_append, Effect.mirrorCast.injEq] at hmem
        rcases hmem with hmem | hmem | hmem | hmem
        · cases hmem
        · rw [hmem]; rfl
        · have := List.countP_eq_zero.mp hc2 _ hmem
          simp [Effect.isMirrorCast] at this
        · exact hl4 mirror hmem
    · obtain ⟨s3, later, hloop, hl1, hl2, hl3, hl4⟩ := ih s
      exact ⟨s3, later, hloop, by simp only [List.length_cons]; omega,
        by simp only [List.length_cons]; omega, hl3, hl4⟩

theorem BattleCast.cast_succ (service : SpellService σ) (env : SpellCastEnvironment σ)
    (fuel : Nat) (self : BattleCast σ) (s : σ) :
    BattleCast.cast service env (fuel + 1) self s
      = match reflectionLoop env
          (fun mirror st => (BattleCast.cast service env fuel mirror st).map
            (fun r => (r.state, r.effects)))
          self.stagePlaceholder
          ((service.battleMechanics self.stagePlaceholder.spell
            self.stagePlaceholder).cast env s self.stagePlaceholder.target).2
          ((service.battleMechanics self.stagePlaceholder.spell
            self.stagePlaceholder).cast env s self.stagePlaceholder.target).1 with
        | none => none
        | some (s2, effects) =>
          some { self := self.stagePlaceholder, state := s2,
                 effects := Effect.mechanicsCast self.stagePlaceholder
                   self.stagePlaceholder.target :: effects } := rfl

theorem BattleCast.nested_of_mirror (service : SpellService σ) (env : SpellCastEnvironment σ)
    (fuel : Nat) (mirror : BattleCast σ) (st : σ) (h : mirror.mode = Mode.MAGIC_MIRROR) :
    ∃ st1 inner,
      (BattleCast.cast service env (fuel + 1) mirror st).map (fun r => (r.state, r.effects))
        = some (st1, inner)
      ∧ inner.countP Effect.isMechanicsCast = 1 ∧ inner.countP Effect.isMirrorCast = 0 := by
  rw [BattleCast.cast_of_mirror service env fuel mirror st h]
  refine ⟨_, _, rfl, ?_, ?_⟩
  · by_cases hr : ((service.battleMechanics mirror.stagePlaceholder.spell
        mirror.stagePlaceholder).cast env st mirror.stagePlaceholder.target).2.isEmpty
    · simp [hr, Effect.isMechanicsCast, List.countP_cons]
    · simp [hr, Effect.isMechanicsCast, List.countP_cons]
  · by_cases hr : ((service.battleMechanics mirror.stagePlaceholder.spell
        mirror.stagePlaceholder).cast env st mirror.stagePlaceholder.target).2.isEmpty
    · simp [hr, Effect.isMirrorCast, List.countP_cons]
    · simp [hr, Effect.isMirrorCast, List.countP_cons]

theorem BattleCast.cast_returns (service : SpellService σ) (env : SpellCastEnvironment σ)
    (fuel : Nat) (self : BattleCast σ) (s : σ) :
    ∃ r : CastResult σ, BattleCast.cast service env (fuel + 2) self s = some r
      ∧ 1 ≤ r.effects.countP Effect.isMechanicsCast := by
  obtain ⟨s1, effects, hloop, _⟩ :=
    reflectionLoop_bounded env
      (fun mirror st => (BattleCast.cast service env (fuel + 1) mirror st).map
        (fun r => (r.state, r.effects)))
      self.stagePlaceholder
      (fun mirror st hm => BattleCast.nested_of_mirror service env fuel mirror st hm)
      ((service.battleMechanics self.stagePlaceholder.spell
        self.stagePlaceholder).cast env s self.stagePlaceholder.target).2
      ((service.battleMechanics self.stagePlaceholder.spell
        self.stagePlaceholder).cast env s self.stagePlaceholder.target).1
  refine ⟨_, by rw [BattleCast.cast_succ, hloop], ?_⟩
  simp [List.countP_cons, Effect.isMechanicsCast]

/-- C7: in any trigger mode and for every behaviour, `BattleCast::cast(env)` returns as soon
as two activations are allowed (the top-level one and one nested level), and more fuel does
not change the result: the reflection recursion has depth at most 1.  Every reflected cast
it starts runs in mode `MAGIC_MIRROR` and itself returns within a single activation, so it
starts no further cast.  At most one reflected cast is started per reflecting unit reported
by the top-level call of the behaviour, each calls the behaviour once, and so the behaviour's
`cast` is called at most 1 + (number of those units) times in total. -/
theorem C7_cast_terminates_depth_one (service : SpellService σ) (env : SpellCastEnvironment σ)
    (fuel : Nat) (self : BattleCast σ) (s : σ) :
    ∃ r : CastResult σ, BattleCast.cast service env (fuel + 2) self s = some r
      ∧ BattleCast.cast service env 2 self s = some r
      ∧ r.effects.countP Effect.isMechanicsCast
          ≤ 1 + ((service.battleMechanics self.stagePlaceholder.spell
              self.stagePlaceholder).cast env s self.stagePlaceholder.target).2.length
      ∧ r.effects.countP Effect.isMirrorCast
          ≤ ((service.battleMechanics self.stagePlaceholder.spell
              self.stagePlaceholder).cast env s self.stagePlaceholder.target).2.length
      ∧ r.effects.countP Effect.isMechanicsCast = 1 + r.effects.countP Effect.isMirrorCast
      ∧ ∀ mirror, Effect.mirrorCast mirror ∈ r.effects →
          mirror.mode = Mode.MAGIC_MIRROR
          ∧ ∀ st, (BattleCast.cast service env 1 mirror st).isSome = true := by
  obtain ⟨s1, effects, hloop, hb1, hb2, hb3, hb4⟩ :=
    reflectionLoop_bounded env
      (fun mirror st => (BattleCast.cast service env (fuel + 1) mirror st).map
        (fun r => (r.state, r.effects)))
      self.stagePlaceholder
      (fun mirror st hm => BattleCast.nested_of_mirror service env fuel mirror st hm)
      ((service.battleMechanics self.stagePlaceholder.spell
        self.stagePlaceholder).cast env s self.stagePlaceholder.target).2
      ((service.battleMechanics self.stagePlaceholder.spell
        self.stagePlaceholder).cast env s self.stagePlaceholder.target).1
  have hfuel : BattleCast.cast service env (fuel + 2) self s
      = some { self := self.stagePlaceholder, state := s1,
               effects := Effect.mechanicsCast self.stagePlaceholder
                 self.stagePlaceholder.target :: effects } := by
    rw [BattleCast.cast_succ, hloop]
  have htwo : BattleCast.cast service env 2 self s
      = BattleCast.cast service env (fuel + 2) self s := by
    rw [BattleCast.cast_succ service env 1, BattleCast.cast_succ service env (fuel + 1)]
    rw [reflectionLoop_congr env
      (fun mirror st => (BattleCast.cast service env 1 mirror st).map
        (fun r => (r.state, r.effects)))
      (fun mirror st => (BattleCast.cast service env (fuel + 1) mirror st).map
        (fun r => (r.state, r.effects)))]
    intro mirror st hm
    simp only [BattleCast.cast_of_mirror service env fuel mirror st hm,
      BattleCast.cast_of_mirror service env 0 mirror st hm]
  refine ⟨_, hfuel, htwo.trans hfuel, ?_, ?_, ?_, ?_⟩
  · simp only [List.countP_cons, Effect.isMechanicsCast]
    simp
    omega
  · simp only [List.countP_cons, Effect.isMirrorCast]
    simp
    omega
  · simp only [List.countP_cons, Effect.isMechanicsCast, Effect.isMirrorCast]
    simp
    omega
  · intro mirror hmem
    simp only [List.mem_cons] at hmem
    rcases hmem with hmem | hmem
    · cases hmem
    · have hm := hb4 mirror hmem
      refine ⟨hm, fun st => ?_⟩
      rw [BattleCast.cast_of_mirror service env 0 mirror st hm]
      rfl

/-- C7 at `heroEvent`, whose behaviour always reports two reflecting units: the cast returns
with any fuel from 2 on, with the same result, after at most 1 + 2 calls of the behaviour. -/
theorem C7_cast_terminates_depth_one_witness :
    ∃ r : CastResult Unit,
      BattleCast.cast (constantService reflectingMechanics) headEnvironment 5 heroEvent ()
        = some r
      ∧ BattleCast.cast (constantService reflectingMechanics) headEnvironment 2 heroEvent ()
        = some r
      ∧ r.effects.countP Effect.isMechanicsCast ≤ 1 + 2
      ∧ r.effects.countP Effect.isMirrorCast ≤ 2 :=
  (C7_cast_terminates_depth_one (constantService reflectingMechanics) headEnvironment 3
    heroEvent ()).imp (fun _ hr => ⟨hr.1, hr.2.1, hr.2.2.1, hr.2.2.2.1⟩)

/-! ### The reflection constructor -/

theorem BattleCast.reflect_copies (orig : BattleCast σ) (caster_ : Caster) :
    (BattleCast.reflect orig caster_).mode = Mode.MAGIC_MIRROR
    ∧ (BattleCast.reflect orig caster_).spell = orig.spell
    ∧ (BattleCast.reflect orig caster_).cb = orig.cb
    ∧ (BattleCast.reflect orig caster_).caster = caster_
    ∧ (BattleCast.reflect orig caster_).getEffectLevel = orig.getEffectLevel
    ∧ (BattleCast.reflect orig caster_).getEffectPower = orig.getEffectPower
    ∧ (BattleCast.reflect orig caster_).getEffectDuration = orig.getEffectDuration
    ∧ (BattleCast.reflect orig caster_).getEffectValue = orig.getEffectValue
    ∧ (BattleCast.reflect orig caster_).getRangeLevel = orig.spellLvl :=
  ⟨rfl, rfl, rfl, rfl, rfl, rfl, rfl, rfl, rfl⟩

/-- C8, the failing input: `rangeOverrideEvent` carries the range-level override 3 and no
spell level, so its `getRangeLevel` returns 3; the `BattleCast` the reflection constructor
builds from it for a reflecting stack has no range level at all, its `getRangeLevel`
returns nothing, and a `BaseMechanics` built from it resolves the range level from the
reflecting caster (school level 1) instead of the original's 3.  The trigger mode, the
spell and the other four getters are carried over. -/
theorem C8_reflection_drops_range_level :
    rangeOverrideEvent.getRangeLevel = some 3
    ∧ (BattleCast.reflect rangeOverrideEvent (sampleStack 1 90).asCaster).getRangeLevel = none
    ∧ (BaseMechanics.create rangeOverrideEvent).getRangeLevel = 3
    ∧ (BaseMechanics.create
        (BattleCast.reflect rangeOverrideEvent (sampleStack 1 90).asCaster)).getRangeLevel = 1
    ∧ (BattleCast.reflect rangeOverrideEvent (sampleStack 1 90).asCaster).mode
        = Mode.MAGIC_MIRROR
    ∧ (BattleCast.reflect rangeOverrideEvent (sampleStack 1 90).asCaster).getEffectLevel
        = rangeOverrideEvent.getEffectLevel := by
  refine ⟨rfl, rfl, ?_, ?_, rfl, rfl⟩ <;> decide

/-! ### `castIfPossible` -/

/-- C9: `castIfPossible(env)` returns (two activations suffice), and it returns true exactly
when `spell.canBeCast(battle, mode, caster)` holds on the battle state of the call.  When it
returns true its outcome (cast object, battle state, effects) is that of one run of `cast`,
which calls the behaviour at least once; when it returns false there is no effect at all,
and the cast object, with its staged destinations, and the battle state are unchanged.  The
returned flag is the same for every cast object with the same spell, battle, mode and
caster, whatever its staged destinations and overrides are; `canBeCastAt` is not
consulted. -/
theorem C9_castIfPossible (service : SpellService σ) (env : SpellCastEnvironment σ)
    (fuel : Nat) (self : BattleCast σ) (s : σ) :
    ∃ r : CastIfPossibleResult σ,
      BattleCast.castIfPossible service env (fuel + 2) self s = some r
      ∧ (r.returned = true ↔
          service.canBeCast self.spell self.cb s self.mode self.caster = true)
      ∧ (service.canBeCast self.spell self.cb s self.mode self.caster = true →
          ∃ c : CastResult σ, BattleCast.cast service env (fuel + 2) self s = some c
            ∧ r.self = c.self ∧ r.state = c.state ∧ r.effects = c.effects
            ∧ 1 ≤ r.effects.countP Effect.isMechanicsCast)
      ∧ (service.canBeCast self.spell self.cb s self.mode self.caster = false →
          r.self = self ∧ r.self.target = self.target ∧ r.state = s ∧ r.effects = [])
      ∧ (∀ other : BattleCast σ, other.spell = self.spell → other.cb = self.cb →
          other.mode = self.mode → other.caster = self.caster →
          ∃ r1 : CastIfPossibleResult σ,
            BattleCast.castIfPossible service env (fuel + 2) other s = some r1
            ∧ r1.returned = r.returned) := by
  obtain ⟨c, hc, hcount⟩ := BattleCast.cast_returns service env fuel self s
  cases hcan : service.canBeCast self.spell self.cb s self.mode self.caster with
  | false =>
    refine ⟨{ returned := false, self := self, state := s, effects := [] }, ?_, ?_, ?_, ?_, ?_⟩
    · simp [BattleCast.castIfPossible, hcan]
    · simp
    · intro h; cases h
    · intro _; exact ⟨rfl, rfl, rfl, rfl⟩
    · intro other h1 h2 h3 h4
      refine ⟨{ returned := false, self := other, state := s, effects := [] }, ?_, rfl⟩
      simp [BattleCast.castIfPossible, h1, h2, h3, h4, hcan]
  | true =>
    refine ⟨{ returned := true, self := c.self, state := c.state, effects := c.effects },
      ?_, ?_, ?_, ?_, ?_⟩
    · simp [BattleCast.castIfPossible, hcan, hc]
    · simp
    · intro _
      exact ⟨c, hc, rfl, rfl, rfl, hcount⟩
    · intro h; cases h
    · intro other h1 h2 h3 h4
      obtain ⟨c1, hc1, _⟩ := BattleCast.cast_returns service env fuel other s
      refine ⟨{ returned := true, self := c1.self, state := c1.state, effects := c1.effects },
        ?_, rfl⟩
      simp [BattleCast.castIfPossible, h1, h2, h3, h4, hcan, hc1]

/-- C9 at the cast of the regression test `issue2765` (Age after an attack, aimed at a war
machine): `canBeCastAt` fails for the aimed hex, `canBeCast` holds, and `castIfPossible`
returns true; with a service that refuses the cast it returns false without any effect. -/
theorem C9_castIfPossible_witness :
    (issue2765Service.canBeCastAt issue2765Event.spell issue2765Event.cb ()
        issue2765Event.mode issue2765Event.caster ⟨90⟩ = false
      ∧ ∃ r : CastIfPossibleResult Unit,
        BattleCast.castIfPossible issue2765Service headEnvironment 2 issue2765Event () = some r
        ∧ r.returned = true)
    ∧ ∃ r : CastIfPossibleResult Unit,
      BattleCast.castIfPossible (refusingService reflectingMechanics) headEnvironment 2
        issue2765Event () = some r
      ∧ r.returned = false ∧ r.self.target = issue2765Event.target ∧ r.effects = [] :=
  ⟨⟨rfl, (C9_castIfPossible issue2765Service headEnvironment 0 issue2765Event ()).imp
      (fun _ hr => ⟨hr.1, hr.2.1.mpr rfl⟩)⟩,
   (C9_castIfPossible (refusingService reflectingMechanics) headEnvironment 0
      issue2765Event ()).imp
      (fun _ hr => ⟨hr.1, Bool.eq_false_iff.mpr (fun h => Bool.noConfusion (hr.2.1.mp h)),
        (hr.2.2.2.1 rfl).2.1, (hr.2.2.2.1 rfl).2.2.2⟩)⟩

/-! ### Factory selection -/

/-- C10: `ISpellMechanicsFactory::get` never returns an empty pointer; the factory it returns
is constructed for the given spell, and its class is the configured factory whenever the
spell has battle effects (whatever its identity), otherwise the dedicated factory exactly for
`FIRE_WALL`, `FORCE_FIELD`, `LAND_MINE` and `QUICKSAND` and the fallback factory for every
other identity; so the class is the same for any two spells that agree on identity and on
`hasBattleEffects`. -/
theorem C10_factory_selection (s : CSpell) :
    ∃ f : ISpellMechanicsFactory, ISpellMechanicsFactory.get s = some f
      ∧ f.spell = s
      ∧ (s.hasBattleEffects = true → f.kind = FactoryKind.ConfigurableMechanicsFactory)
      ∧ (s.hasBattleEffects = false →
          (s.id = SpellID.FIRE_WALL → f.kind = FactoryKind.FireWallMechanics)
          ∧ (s.id = SpellID.FORCE_FIELD → f.kind = FactoryKind.ForceFieldMechanics)
          ∧ (s.id = SpellID.LAND_MINE → f.kind = FactoryKind.LandMineMechanics)
          ∧ (s.id = SpellID.QUICKSAND → f.kind = FactoryKind.QuicksandMechanics)
          ∧ (s.id ≠ SpellID.FIRE_WALL → s.id ≠ SpellID.FORCE_FIELD →
              s.id ≠ SpellID.LAND_MINE → s.id ≠ SpellID.QUICKSAND →
              f.kind = FactoryKind.FallbackMechanicsFactory)
          ∧ (f.kind = FactoryKind.FireWallMechanics → s.id = SpellID.FIRE_WALL)
          ∧ (f.kind = FactoryKind.ForceFieldMechanics → s.id = SpellID.FORCE_FIELD)
          ∧ (f.kind = FactoryKind.LandMineMechanics → s.id = SpellID.LAND_MINE)
          ∧ (f.kind = FactoryKind.QuicksandMechanics → s.id = SpellID.QUICKSAND))
      ∧ (∀ s1 : CSpell, s1.id = s.id → s1.hasBattleEffects = s.hasBattleEffects →
          (ISpellMechanicsFactory.get s1).map ISpellMechanicsFactory.kind = some f.kind) := by
  obtain ⟨id, hasEffects, raw, offensive, levels, aim, info⟩ := s
  cases hasEffects with
  | true =>
    refine ⟨_, rfl, rfl, fun _ => rfl, fun h => ?_, fun s1 _ h2 => ?_⟩
    · cases h
    · simp only at h2
      simp [ISpellMechanicsFactory.get, h2]
  | false =>
    cases id <;>
    · refine ⟨_, rfl, rfl, fun h => ?_, fun _ => ?_, fun s1 h1 h2 => ?_⟩
      · cases h
      · simp
      · simp only at h1 h2
        simp [ISpellMechanicsFactory.get, h1, h2]

/-- C10 at Fire Wall: with a custom battle-effect configuration the configured factory is
chosen, without one the dedicated Fire Wall factory. -/
theorem C10_factory_selection_witness :
    (ISpellMechanicsFactory.get configuredFireWall).map ISpellMechanicsFactory.kind
      = some FactoryKind.ConfigurableMechanicsFactory
    ∧ (ISpellMechanicsFactory.get legacyFireWall).map ISpellMechanicsFactory.kind
      = some FactoryKind.FireWallMechanics :=
  ⟨(C10_factory_selection configuredFireWall).elim (fun f hf => by
      rw [hf.1, Option.map_some', hf.2.2.1 rfl]),
   (C10_factory_selection legacyFireWall).elim (fun f hf => by
      rw [hf.1, Option.map_some', (hf.2.2.2.1 rfl).1 rfl])⟩

/-! ### Target enumeration: full-length sequences only -/

theorem BattleCast.findPotentialTargets_one (service : SpellService σ) (self : BattleCast σ)
    (type0 : AimType) (h : (service.battleMechanics self.spell self).getTargetTypes = [type0]) :
    (self.findPotentialTargets service).targets
      = ((service.battleMechanics self.spell self).getPossibleDestinations 0 type0 []).map
          (fun d0 => [d0]) := by
  simp [BattleCast.findPotentialTargets, h, findPotentialTargetsLoop_one]

theorem BattleCast.findPotentialTargets_two (service : SpellService σ) (self : BattleCast σ)
    (type0 type1 : AimType)
    (h : (service.battleMechanics self.spell self).getTargetTypes = [type0, type1]) :
    (self.findPotentialTargets service).targets
      = ((service.battleMechanics self.spell self).getPossibleDestinations 0 type0 []).flatMap
          (fun d0 =>
            ((service.battleMechanics self.spell self).getPossibleDestinations 1 type1 [d0]).map
              (fun d1 => [d0, d1])) := by
  simp [BattleCast.findPotentialTargets, h, (findPotentialTargetsLoop_two _ type0 type1).1]

theorem BattleCast.findPotentialTargets_many (service : SpellService σ) (self : BattleCast σ)
    (h : 2 < (service.battleMechanics self.spell self).getTargetTypes.length) :
    (self.findPotentialTargets service).targets = [] := by
  simp [BattleCast.findPotentialTargets, h]

/-- C20: every sequence `findPotentialTargets` returns has exactly as many destinations as
the behaviour has target-type slots, so no partial sequence is returned; the result is empty
whenever slot 0 has no legal destination, and, for two slots, whenever no legal first
destination has a legal second destination. -/
theorem C20_findPotentialTargets_full_length (service : SpellService σ) (self : BattleCast σ) :
    (∀ t ∈ (self.findPotentialTargets service).targets,
        t.length = (service.battleMechanics self.spell self).getTargetTypes.length)
    ∧ (∀ (type0 : AimType) (rest : List AimType),
        (service.battleMechanics self.spell self).getTargetTypes = type0 :: rest →
        (service.battleMechanics self.spell self).getPossibleDestinations 0 type0 [] = [] →
        (self.findPotentialTargets service).targets = [])
    ∧ (∀ type0 type1 : AimType,
        (service.battleMechanics self.spell self).getTargetTypes = [type0, type1] →
        (∀ d0 ∈ (service.battleMechanics self.spell self).getPossibleDestinations 0 type0 [],
          (service.battleMechanics self.spell self).getPossibleDestinations 1 type1 [d0] = []) →
        (self.findPotentialTargets service).targets = []) := by
  refine ⟨?_, ?_, ?_⟩
  · intro t ht
    cases hty : (service.battleMechanics self.spell self).getTargetTypes with
    | nil =>
      simp [BattleCast.findPotentialTargets, hty] at ht
    | cons type0 rest =>
      cases rest with
      | nil =>
        rw [BattleCast.findPotentialTargets_one service self type0 hty] at ht
        simp only [List.mem_map] at ht
        obtain ⟨d0, _, rfl⟩ := ht
        rfl
      | cons type1 rest1 =>
        cases rest1 with
        | nil =>
          rw [BattleCast.findPotentialTargets_two service self type0 type1 hty] at ht
          simp only [List.mem_flatMap, List.mem_map] at ht
          obtain ⟨d0, _, d1, _, rfl⟩ := ht
          rfl
        | cons type2 rest2 =>
          rw [BattleCast.findPotentialTargets_many service self (by simp [hty])] at ht
          cases ht
  · intro type0 rest hty hnone
    cases rest with
    | nil =>
      rw [BattleCast.findPotentialTargets_one service self type0 hty, hnone]
      rfl
    | cons type1 rest1 =>
      cases rest1 with
      | nil =>
        rw [BattleCast.findPotentialTargets_two service self type0 type1 hty, hnone]
        rfl
      | cons type2 rest2 =>
        exact BattleCast.findPotentialTargets_many service self (by simp [hty])
  · intro type0 type1 hty hnone
    rw [BattleCast.findPotentialTargets_two service self type0 type1 hty]
    rw [List.flatMap_eq_nil_iff]
    intro d0 hd0
    rw [hnone d0 hd0]
    rfl

/-- C20 at `twoSlotMechanics` (every returned sequence has two destinations) and at
`deadEndMechanics`, whose only first destination has no second one: nothing is returned, in
particular not the partial sequence of the first destination alone. -/
theorem C20_findPotentialTargets_full_length_witness :
    (∀ t ∈ (plainEvent.findPotentialTargets (constantService twoSlotMechanics)).targets,
        t.length = 2)
    ∧ (plainEvent.findPotentialTargets (constantService deadEndMechanics)).targets = [] :=
  ⟨(C20_findPotentialTargets_full_length (constantService twoSlotMechanics) plainEvent).1,
   (C20_findPotentialTargets_full_length (constantService deadEndMechanics) plainEvent).2.2
      AimType.CREATURE AimType.LOCATION rfl (by decide)⟩

/-! ### Staging destinations -/

theorem BattleCast.stagePlaceholder_target (self : BattleCast σ) :
    self.stagePlaceholder.target
      = if self.target.isEmpty then [Destination.ofHex BattleHex.INVALID] else self.target := by
  unfold BattleCast.stagePlaceholder BattleCast.aimToHex
  cases h : self.target with
  | nil => simp
  | cons d ds => simp [h]

theorem BattleCast.stagePlaceholder_target_ne_nil (self : BattleCast σ) :
    self.stagePlaceholder.target ≠ [] := by
  rw [BattleCast.stagePlaceholder_target]
  cases h : self.target with
  | nil => simp
  | cons d ds => simp

/-- C15: `aimToUnit` with a null unit leaves the staged destinations unchanged (it only logs
an error); `aimToUnit` with a unit and `aimToHex` with any hex each append exactly one
destination, that unit respectively that hex, behind the destinations staged before, which
keep their places. -/
theorem C15_aim_appends_one (self : BattleCast σ) (unitId : Nat) (hex : BattleHex) :
    (self.aimToUnit none).1.target = self.target
    ∧ (self.aimToUnit none).1 = self
    ∧ (self.aimToUnit (some unitId)).1.target = self.target ++ [Destination.ofUnit unitId]
    ∧ (self.aimToUnit (some unitId)).1.target.length = self.target.length + 1
    ∧ (self.aimToUnit (some unitId)).1.target.take self.target.length = self.target
    ∧ (self.aimToHex hex).target = self.target ++ [Destination.ofHex hex]
    ∧ (self.aimToHex hex).target.length = self.target.length + 1
    ∧ (self.aimToHex hex).target.take self.target.length = self.target := by
  refine ⟨rfl, rfl, rfl, ?_, ?_, rfl, ?_, ?_⟩
  · simp [BattleCast.aimToUnit]
  · simp [BattleCast.aimToUnit]
  · simp [BattleCast.aimToHex]
  · simp [BattleCast.aimToHex]

/-- C15 at `heroEvent`, which has unit 3 staged: a null unit changes nothing, unit 9
respectively hex 40 is appended behind unit 3. -/
theorem C15_aim_appends_one_witness :
    (heroEvent.aimToUnit none).1.target = [Destination.ofUnit 3]
    ∧ (heroEvent.aimToUnit (some 9)).1.target = [Destination.ofUnit 3, Destination.ofUnit 9]
    ∧ (heroEvent.aimToHex ⟨40⟩).target = [Destination.ofUnit 3, Destination.ofHex ⟨40⟩] :=
  ⟨(C15_aim_appends_one heroEvent 9 ⟨40⟩).1,
   (C15_aim_appends_one heroEvent 9 ⟨40⟩).2.2.1,
   (C15_aim_appends_one heroEvent 9 ⟨40⟩).2.2.2.2.2.1⟩

theorem reflectionLoop_forall (env : SpellCastEnvironment σ)
    (nested : BattleCast σ → σ → Option (σ × List (Effect σ))) (self : BattleCast σ)
    (all : List CStack) (P : Effect σ → Prop)
    (hlog : P (Effect.logError "Magic mirror recurrence!"))
    (hdraw : ∀ n, P (Effect.randomDraw n))
    (hmirror : ∀ cre ∈ all, ∀ hex,
      P (Effect.mirrorCast ((BattleCast.reflect self cre.asCaster).aimToHex hex)))
    (hn : ∀ mirror st st1 inner, mirror.mode = Mode.MAGIC_MIRROR →
      nested mirror st = some (st1, inner) → ∀ e ∈ inner, P e)
    (reflected : List CStack) (hsub : ∀ c ∈ reflected, c ∈ all) (s s1 : σ)
    (effects : List (Effect σ))
    (h : reflectionLoop env nested self reflected s = some (s1, effects)) :
    ∀ e ∈ effects, P e := by
  induction reflected generalizing s s1 effects with
  | nil =>
    simp only [reflectionLoop, Option.some.injEq, Prod.mk.injEq] at h
    intro e he
    rw [← h.2] at he
    cases he
  | cons attackedCre rest ih =>
    have hsubRest : ∀ c ∈ rest, c ∈ all := fun c hc => hsub c (List.mem_cons_of_mem _ hc)
    simp only [reflectionLoop] at h
    split_ifs at h with hm hne
    · simp only [Option.some.injEq, Prod.mk.injEq] at h
      intro e he
      rw [← h.2] at he
      simp only [List.mem_singleton] at he
      rw [he]
      exact hlog
    · cases hnested : nested ((BattleCast.reflect self attackedCre.asCaster).aimToHex
          (env.nextItem _ hne s).1.val.getPosition) (env.nextItem _ hne s).2 with
      | none => simp [hnested] at h
      | some res =>
        obtain ⟨st1, inner⟩ := res
        cases hloop : reflectionLoop env nested self rest st1 with
        | none => simp [hnested, hloop] at h
        | some res2 =>
          obtain ⟨s3, later⟩ := res2
          simp only [hnested, hloop, Option.some.injEq, Prod.mk.injEq] at h
          intro e he
          rw [← h.2] at he
          simp only [List.mem_cons, List.mem_append] at he
          rcases he with he | he | he | he
          · rw [he]; exact hdraw _
          · rw [he]; exact hmirror attackedCre (hsub _ (List.mem_cons_self _ _)) _
          · exact hn _ _ _ _ rfl hnested e he
          · exact ih hsubRest st1 s3 later hloop e he
    · exact ih hsubRest s s1 effects h

theorem BattleCast.cast_mirror_effects_forall (service : SpellService σ)
    (env : SpellCastEnvironment σ) (fuel : Nat) (mirror : BattleCast σ) (st st1 : σ)
    (inner : List (Effect σ)) (P : Effect σ → Prop)
    (hlog : P (Effect.logError "Magic mirror recurrence!"))
    (hcast : P (Effect.mechanicsCast mirror.stagePlaceholder mirror.stagePlaceholder.target))
    (hm : mirror.mode = Mode.MAGIC_MIRROR)
    (h : (BattleCast.cast service env (fuel + 1) mirror st).map (fun r => (r.state, r.effects))
      = some (st1, inner)) :
    ∀ e ∈ inner, P e := by
  rw [BattleCast.cast_of_mirror service env fuel mirror st hm] at h
  simp only [Option.map_some', Option.some.injEq, Prod.mk.injEq] at h
  intro e he
  rw [← h.2] at he
  simp only [List.mem_cons] at he
  rcases he with he | he
  · rw [he]; exact hcast
  · split_ifs at he
    · cases he
    · simp only [List.mem_singleton] at he
      rw [he]; exact hlog

/-- C14: in both cast entry points the behaviour is handed exactly the placeholder
`Destination(BattleHex::INVALID)` when no destination was staged, and the staged
destinations unchanged otherwise; the sequence handed over is never empty, also not in the
nested casts of reflections.  For `cast(env)` the behaviour built from the staged cast object
is called on the battle state of the call with exactly that sequence: the reflection loop
runs over the units this call reports, from the battle state this call leaves, and yields the
final state and the remaining effects; when the call reports no unit, the final state is the
one it leaves.  For `cast(battleState, rng)` the final state is the one the behaviour's
overload leaves when called with exactly that sequence. -/
theorem C14_placeholder_destination (service : SpellService σ) (env : SpellCastEnvironment σ)
    (fuel : Nat) (self : BattleCast σ) (s : σ) :
    (∃ (r : CastResult σ) (rest : List (Effect σ)),
      BattleCast.cast service env (fuel + 2) self s = some r
      ∧ r.effects = Effect.mechanicsCast r.self
          (if self.target.isEmpty then [Destination.ofHex BattleHex.INVALID] else self.target)
          :: rest
      ∧ r.self.target
          = (if self.target.isEmpty then [Destination.ofHex BattleHex.INVALID] else self.target)
      ∧ (∀ event target, Effect.mechanicsCast event target ∈ r.effects → target ≠ [])
      ∧ r.self = self.stagePlaceholder
      ∧ reflectionLoop env (BattleCast.nestedCast service env (fuel + 1)) self.stagePlaceholder
          ((service.battleMechanics self.stagePlaceholder.spell self.stagePlaceholder).cast env s
            (if self.target.isEmpty then [Destination.ofHex BattleHex.INVALID]
             else self.target)).2
          ((service.battleMechanics self.stagePlaceholder.spell self.stagePlaceholder).cast env s
            (if self.target.isEmpty then [Destination.ofHex BattleHex.INVALID]
             else self.target)).1
          = some (r.state, rest)
      ∧ (((service.battleMechanics self.stagePlaceholder.spell self.stagePlaceholder).cast env s
            (if self.target.isEmpty then [Destination.ofHex BattleHex.INVALID]
             else self.target)).2 = [] →
          r.state
            = ((service.battleMechanics self.stagePlaceholder.spell
                self.stagePlaceholder).cast env s
                (if self.target.isEmpty then [Destination.ofHex BattleHex.INVALID]
                 else self.target)).1
          ∧ r.effects = [Effect.mechanicsCast self.stagePlaceholder
              (if self.target.isEmpty then [Destination.ofHex BattleHex.INVALID]
               else self.target)]))
    ∧ (BattleCast.castOnBattleState service self s).effects
        = [Effect.mechanicsCastOnBattleState (BattleCast.castOnBattleState service self s).self
            (if self.target.isEmpty then [Destination.ofHex BattleHex.INVALID]
             else self.target)]
    ∧ (BattleCast.castOnBattleState service self s).state
        = (service.battleMechanics self.stagePlaceholder.spell
            self.stagePlaceholder).castOnBattleState s
            (if self.target.isEmpty then [Destination.ofHex BattleHex.INVALID]
             else self.target)
    ∧ (if self.target.isEmpty then [Destination.ofHex BattleHex.INVALID] else self.target) ≠ []
    ∧ (self.target ≠ [] →
        (if self.target.isEmpty then [Destination.ofHex BattleHex.INVALID] else self.target)
          = self.target) := by
  refine ⟨?_, ?_, ?_, ?_, ?_⟩
  · cases hloop : reflectionLoop env
        (fun mirror st => (BattleCast.cast service env (fuel + 1) mirror st).map
          (fun r => (r.state, r.effects)))
        self.stagePlaceholder
        ((service.battleMechanics self.stagePlaceholder.spell
          self.stagePlaceholder).cast env s self.stagePlaceholder.target).2
        ((service.battleMechanics self.stagePlaceholder.spell
          self.stagePlaceholder).cast env s self.stagePlaceholder.target).1 with
    | none =>
      obtain ⟨r, hr, _⟩ := BattleCast.cast_returns service env fuel self s
      rw [BattleCast.cast_succ, hloop] at hr
      cases hr
    | some res =>
      obtain ⟨s1, effects⟩ := res
      refine ⟨_, effects, by rw [BattleCast.cast_succ, hloop], ?_, ?_, ?_, rfl, ?_, ?_⟩
      · simp only [BattleCast.stagePlaceholder_target]
      · simp only [BattleCast.stagePlaceholder_target]
      rotate_left
      · rw [← BattleCast.stagePlaceholder_target]
        exact hloop
      · rw [← BattleCast.stagePlaceholder_target]
        intro hnil
        rw [hnil] at hloop
        simp only [reflectionLoop, Option.some.injEq, Prod.mk.injEq] at hloop
        exact ⟨hloop.1.symm, by rw [← hloop.2]⟩
      · have hall := reflectionLoop_forall env _ self.stagePlaceholder
          ((service.battleMechanics self.stagePlaceholder.spell
            self.stagePlaceholder).cast env s self.stagePlaceholder.target).2
          (fun e => ∀ event target, e = Effect.mechanicsCast event target → target ≠ [])
          (fun _ _ h => by cases h) (fun _ _ _ h => by cases h) (fun _ _ _ _ _ h => by cases h)
          (fun mirror st st1 inner hm hnested =>
            BattleCast.cast_mirror_effects_forall service env fuel mirror st st1 inner _
              (fun _ _ h => by cases h)
              (fun event target h => by
                simp only [Effect.mechanicsCast.injEq] at h
                rw [← h.2]
                exact BattleCast.stagePlaceholder_target_ne_nil mirror)
              hm hnested)
          _ (fun _ hc => hc) _ s1 effects hloop
        intro event target hmem
        simp only [List.mem_cons] at hmem
        rcases hmem with hmem | hmem
        · simp only [Effect.mechanicsCast.injEq] at hmem
          rw [hmem.2]
          exact BattleCast.stagePlaceholder_target_ne_nil self
        · exact hall _ hmem event target rfl
  · simp only [BattleCast.castOnBattleState, BattleCast.stagePlaceholder_target]
  · simp only [BattleCast.castOnBattleState, BattleCast.stagePlaceholder_target]
  · rw [← BattleCast.stagePlaceholder_target]
    exact BattleCast.stagePlaceholder_target_ne_nil self
  · intro hne
    cases h : self.target with
    | nil => exact absurd h hne
    | cons d ds => simp

/-- C14 at `unaimedEvent`, which has nothing staged, and at `heroEvent`, which has unit 3
staged: the second entry point hands over the placeholder, respectively unit 3.  And at the
behaviour that leaves in the battle state the number of destinations it is handed:
`cast(env)` leaves 1 for `countingEvent`, which has nothing staged, and 2 for
`countingStagedEvent`, which has two destinations staged. -/
theorem C14_placeholder_destination_witness :
    (BattleCast.castOnBattleState (constantService reflectingMechanics) unaimedEvent ()).effects
      = [Effect.mechanicsCastOnBattleState
          (BattleCast.castOnBattleState (constantService reflectingMechanics) unaimedEvent
            ()).self
          [Destination.ofHex BattleHex.INVALID]]
    ∧ (BattleCast.castOnBattleState (constantService reflectingMechanics) heroEvent ()).effects
      = [Effect.mechanicsCastOnBattleState
          (BattleCast.castOnBattleState (constantService reflectingMechanics) heroEvent ()).self
          [Destination.ofUnit 3]]
    ∧ (∃ r : CastResult Nat,
        BattleCast.cast countingService countingEnvironment 2 countingEvent 7 = some r
        ∧ r.state = 1
        ∧ r.effects = [Effect.mechanicsCast countingEvent.stagePlaceholder
            [Destination.ofHex BattleHex.INVALID]])
    ∧ (∃ r : CastResult Nat,
        BattleCast.cast countingService countingEnvironment 2 countingStagedEvent 7 = some r
        ∧ r.state = 2
        ∧ r.effects = [Effect.mechanicsCast countingStagedEvent.stagePlaceholder
            [Destination.ofUnit 3, Destination.ofHex ⟨40⟩]]) :=
  ⟨(C14_placeholder_destination (constantService reflectingMechanics) headEnvironment 0
      unaimedEvent ()).2.1,
   (C14_placeholder_destination (constantService reflectingMechanics) headEnvironment 0
      heroEvent ()).2.1,
   (C14_placeholder_destination countingService countingEnvironment 0 countingEvent 7).1.elim
      (fun r h1 => h1.elim (fun _ h2 =>
        ⟨r, h2.1, (h2.2.2.2.2.2.2 rfl).1, (h2.2.2.2.2.2.2 rfl).2⟩)),
   (C14_placeholder_destination countingService countingEnvironment 0 countingStagedEvent
      7).1.elim
      (fun r h1 => h1.elim (fun _ h2 =>
        ⟨r, h2.1, (h2.2.2.2.2.2.2 rfl).1, (h2.2.2.2.2.2.2 rfl).2⟩))⟩

/-! ### The reflection loop, unit by unit -/

theorem BattleCast.cast_of_mirror_counts (service : SpellService σ)
    (env : SpellCastEnvironment σ) (fuel : Nat) (mirror : BattleCast σ) (st : σ)
    (h : mirror.mode = Mode.MAGIC_MIRROR) :
    ∃ r : CastResult σ, BattleCast.cast service env (fuel + 1) mirror st = some r
      ∧ r.self = mirror.stagePlaceholder
      ∧ r.effects.head? = some (Effect.mechanicsCast mirror.stagePlaceholder
          mirror.stagePlaceholder.target)
      ∧ r.effects.countP Effect.isMechanicsCast = 1
      ∧ r.effects.countP Effect.isRandomDraw = 0
      ∧ r.effects.countP Effect.isMirrorCast = 0 := by
  refine ⟨_, BattleCast.cast_of_mirror service env fuel mirror st h, rfl, rfl, ?_, ?_, ?_⟩
  · by_cases hr : ((service.battleMechanics mirror.stagePlaceholder.spell
        mirror.stagePlaceholder).cast env st mirror.stagePlaceholder.target).2.isEmpty
    · simp [hr, Effect.isMechanicsCast, List.countP_cons]
    · simp [hr, Effect.isMechanicsCast, List.countP_cons]
  · by_cases hr : ((service.battleMechanics mirror.stagePlaceholder.spell
        mirror.stagePlaceholder).cast env st mirror.stagePlaceholder.target).2.isEmpty
    · simp [hr, Effect.isRandomDraw, List.countP_cons]
    · simp [hr, Effect.isRandomDraw, List.countP_cons]
  · by_cases hr : ((service.battleMechanics mirror.stagePlaceholder.spell
        mirror.stagePlaceholder).cast env st mirror.stagePlaceholder.target).2.isEmpty
    · simp [hr, Effect.isMirrorCast, List.countP_cons]
    · simp [hr, Effect.isMirrorCast, List.countP_cons]

theorem reflectionLoop_draws (env : SpellCastEnvironment σ)
    (nested : BattleCast σ → σ → Option (σ × List (Effect σ))) (self : BattleCast σ)
    (hn : ∀ mirror st st1 inner, mirror.mode = Mode.MAGIC_MIRROR →
      nested mirror st = some (st1, inner) →
      inner.countP Effect.isRandomDraw = 0 ∧ inner.countP Effect.isMirrorCast = 0)
    (reflected : List CStack) (s s1 : σ) (effects : List (Effect σ))
    (h : reflectionLoop env nested self reflected s = some (s1, effects)) :
    effects.countP Effect.isRandomDraw = effects.countP Effect.isMirrorCast := by
  induction reflected generalizing s s1 effects with
  | nil =>
    simp only [reflectionLoop, Option.some.injEq, Prod.mk.injEq] at h
    rw [← h.2]
    rfl
  | cons attackedCre rest ih =>
    simp only [reflectionLoop] at h
    split_ifs at h with hm hne
    · simp only [Option.some.injEq, Prod.mk.injEq] at h
      rw [← h.2]
      rfl
    · cases hnested : nested ((BattleCast.reflect self attackedCre.asCaster).aimToHex
          (env.nextItem _ hne s).1.val.getPosition) (env.nextItem _ hne s).2 with
      | none => simp [hnested] at h
      | some res =>
        obtain ⟨st1, inner⟩ := res
        cases hloop : reflectionLoop env nested self rest st1 with
        | none => simp [hnested, hloop] at h
        | some res2 =>
          obtain ⟨s3, later⟩ := res2
          simp only [hnested, hloop, Option.some.injEq, Prod.mk.injEq] at h
          obtain ⟨hd, hmc⟩ := hn _ _ _ _ rfl hnested
          have hl := ih st1 s3 later hloop
          rw [← h.2]
          simp only [List.countP_cons, List.countP_append, Effect.isRandomDraw,
            Effect.isMirrorCast, hd, hmc, hl]
          simp
    · exact ih s s1 effects h

theorem BattleCast.mem_mirrorTargets (self : BattleCast σ) (st : σ) (x : CStack) :
    x ∈ self.mirrorTargets st ↔
      x ∈ self.cb.battleGetAllStacks st ∧ x.owner = self.caster.getOwner
        ∧ x.isValidTarget false = true := by
  simp [BattleCast.mirrorTargets, CBattleInfoCallback.battleGetStacksIf]

theorem BattleCast.stagePlaceholder_mirrorTargets (self : BattleCast σ) (st : σ) :
    self.stagePlaceholder.mirrorTargets st = self.mirrorTargets st := by
  unfold BattleCast.stagePlaceholder BattleCast.aimToHex
  split_ifs <;> rfl

/-- C16: in `BattleCast::cast(env)` with a trigger mode other than `MAGIC_MIRROR` the
reflecting units reported by the behaviour are handled in order, on the battle state left by
the units before.  For one unit: the candidates are the battle stacks owned by the owner of
the cast's caster for which `isValidTarget(false)` holds; if there is none, nothing is drawn
and nothing cast, and the loop goes on with the next unit; otherwise exactly one random draw
is made and exactly one reflected cast is executed, whose caster is the reflecting unit,
whose mode is `MAGIC_MIRROR` and whose destinations are exactly the position of the drawn
candidate, and which itself calls the behaviour once and draws and reflects nothing; then
the loop goes on with the next unit.  Over the whole cast there are as many draws as
reflected casts, and every reflected cast is by one of the reported units at one hex. -/
theorem C16_reflection_per_unit (service : SpellService σ) (env : SpellCastEnvironment σ)
    (fuel : Nat) (self : BattleCast σ) (s : σ) (hmode : self.mode ≠ Mode.MAGIC_MIRROR) :
    (∃ (r : CastResult σ) (effects : List (Effect σ)),
      BattleCast.cast service env (fuel + 2) self s = some r
      ∧ reflectionLoop env (BattleCast.nestedCast service env (fuel + 1)) self.stagePlaceholder
          ((service.battleMechanics self.stagePlaceholder.spell
            self.stagePlaceholder).cast env s self.stagePlaceholder.target).2
          ((service.battleMechanics self.stagePlaceholder.spell
            self.stagePlaceholder).cast env s self.stagePlaceholder.target).1
          = some (r.state, effects)
      ∧ r.effects
          = Effect.mechanicsCast self.stagePlaceholder self.stagePlaceholder.target :: effects
      ∧ effects.countP Effect.isRandomDraw = effects.countP Effect.isMirrorCast
      ∧ ∀ mirror, Effect.mirrorCast mirror ∈ effects →
          mirror.mode = Mode.MAGIC_MIRROR
          ∧ (∃ cre ∈ ((service.battleMechanics self.stagePlaceholder.spell
                self.stagePlaceholder).cast env s self.stagePlaceholder.target).2,
              mirror.caster = cre.asCaster)
          ∧ ∃ hex, mirror.target = [Destination.ofHex hex])
    ∧ (∀ (x : CStack) (st : σ), x ∈ self.stagePlaceholder.mirrorTargets st ↔
        x ∈ self.cb.battleGetAllStacks st ∧ x.owner = self.caster.getOwner
          ∧ x.isValidTarget false = true)
    ∧ (∀ (attackedCre : CStack) (rest : List CStack) (st : σ),
        self.stagePlaceholder.mirrorTargets st = [] →
        reflectionLoop env (BattleCast.nestedCast service env (fuel + 1)) self.stagePlaceholder
            (attackedCre :: rest) st
          = reflectionLoop env (BattleCast.nestedCast service env (fuel + 1))
              self.stagePlaceholder rest st)
    ∧ (∀ (attackedCre : CStack) (rest : List CStack) (st : σ)
        (h : (self.stagePlaceholder.mirrorTargets st).isEmpty = false),
        ∃ (r : CastResult σ) (s3 : σ) (later : List (Effect σ)),
          BattleCast.cast service env (fuel + 1)
              ((BattleCast.reflect self.stagePlaceholder attackedCre.asCaster).aimToHex
                (env.nextItem (self.stagePlaceholder.mirrorTargets st) h st).1.val.getPosition)
              (env.nextItem (self.stagePlaceholder.mirrorTargets st) h st).2 = some r
          ∧ (env.nextItem (self.stagePlaceholder.mirrorTargets st) h st).1.val
              ∈ self.stagePlaceholder.mirrorTargets st
          ∧ r.self.caster = attackedCre.asCaster
          ∧ r.self.mode = Mode.MAGIC_MIRROR
          ∧ r.self.target = [Destination.ofHex
              (env.nextItem (self.stagePlaceholder.mirrorTargets st) h st).1.val.getPosition]
          ∧ r.effects.head? = some (Effect.mechanicsCast r.self r.self.target)
          ∧ r.effects.countP Effect.isMechanicsCast = 1
          ∧ r.effects.countP Effect.isRandomDraw = 0
          ∧ r.effects.countP Effect.isMirrorCast = 0
          ∧ reflectionLoop env (BattleCast.nestedCast service env (fuel + 1))
              self.stagePlaceholder rest r.state = some (s3, later)
          ∧ reflectionLoop env (BattleCast.nestedCast service env (fuel + 1))
              self.stagePlaceholder (attackedCre :: rest) st
            = some (s3,
                Effect.randomDraw (self.stagePlaceholder.mirrorTargets st).length ::
                Effect.mirrorCast
                  ((BattleCast.reflect self.stagePlaceholder attackedCre.asCaster).aimToHex
                    (env.nextItem (self.stagePlaceholder.mirrorTargets st) h
                      st).1.val.getPosition) ::
                (r.effects ++ later))) := by
  have hmode1 : ¬ self.stagePlaceholder.mode = Mode.MAGIC_MIRROR := by
    rw [BattleCast.stagePlaceholder_mode]; exact hmode
  have hnestedOk : ∀ mirror st, mirror.mode = Mode.MAGIC_MIRROR →
      ∃ st1 inner, BattleCast.nestedCast service env (fuel + 1) mirror st = some (st1, inner)
        ∧ inner.countP Effect.isMechanicsCast = 1 ∧ inner.countP Effect.isMirrorCast = 0 :=
    fun mirror st hm => BattleCast.nested_of_mirror service env fuel mirror st hm
  have hloopOk : ∀ (reflected : List CStack) (st : σ), ∃ s1 effects,
      reflectionLoop env (BattleCast.nestedCast service env (fuel + 1)) self.stagePlaceholder
        reflected st = some (s1, effects) := by
    intro reflected st
    obtain ⟨s1, effects, hl, _⟩ := reflectionLoop_bounded env
      (BattleCast.nestedCast service env (fuel + 1)) self.stagePlaceholder hnestedOk reflected st
    exact ⟨s1, effects, hl⟩
  refine ⟨?_, ?_, ?_, ?_⟩
  · obtain ⟨s1, effects, hloop⟩ := hloopOk
      ((service.battleMechanics self.stagePlaceholder.spell
        self.stagePlaceholder).cast env s self.stagePlaceholder.target).2
      ((service.battleMechanics self.stagePlaceholder.spell
        self.stagePlaceholder).cast env s self.stagePlaceholder.target).1
    have hcast : BattleCast.cast service env (fuel + 2) self s
        = some { self := self.stagePlaceholder, state := s1,
                 effects := Effect.mechanicsCast self.stagePlaceholder
                   self.stagePlaceholder.target :: effects } := by
      rw [BattleCast.cast_succ]
      have hloop1 := hloop
      unfold BattleCast.nestedCast at hloop1
      rw [hloop1]
    refine ⟨_, effects, hcast, hloop, rfl, ?_, ?_⟩
    · refine reflectionLoop_draws env _ self.stagePlaceholder ?_ _ _ s1 effects hloop
      intro mirror st st1 inner hm hnested
      obtain ⟨r, hr, _, _, _, hd, hmc⟩ :=
        BattleCast.cast_of_mirror_counts service env fuel mirror st hm
      simp only [BattleCast.nestedCast, hr, Option.map_some', Option.some.injEq,
        Prod.mk.injEq] at hnested
      rw [← hnested.2]
      exact ⟨hd, hmc⟩
    · have hall := reflectionLoop_forall env (BattleCast.nestedCast service env (fuel + 1))
        self.stagePlaceholder
        ((service.battleMechanics self.stagePlaceholder.spell
          self.stagePlaceholder).cast env s self.stagePlaceholder.target).2
        (fun e => ∀ mirror, e = Effect.mirrorCast mirror →
          mirror.mode = Mode.MAGIC_MIRROR
          ∧ (∃ cre ∈ ((service.battleMechanics self.stagePlaceholder.spell
                self.stagePlaceholder).cast env s self.stagePlaceholder.target).2,
              mirror.caster = cre.asCaster)
          ∧ ∃ hex, mirror.target = [Destination.ofHex hex])
        (fun _ h => by cases h) (fun _ _ h => by cases h)
        (fun cre hcre hex mirror h => by
          simp only [Effect.mirrorCast.injEq] at h
          rw [← h]
          exact ⟨rfl, ⟨cre, hcre, rfl⟩, ⟨hex, rfl⟩⟩)
        (fun mirror st st1 inner hm hnested =>
          BattleCast.cast_mirror_effects_forall service env fuel mirror st st1 inner _
            (fun _ h => by cases h) (fun _ h => by cases h) hm hnested)
        _ (fun _ hc => hc) _ s1 effects hloop
      intro mirror hmem
      exact hall _ hmem mirror rfl
  · intro x st
    rw [BattleCast.stagePlaceholder_mirrorTargets]
    exact BattleCast.mem_mirrorTargets self st x
  · intro attackedCre rest st hempty
    have hne : ¬ (self.stagePlaceholder.mirrorTargets st).isEmpty = false := by
      simp [hempty]
    simp only [reflectionLoop, hmode1, if_false]
    split_ifs
    rfl
  · intro attackedCre rest st h
    obtain ⟨r, hr, hself, hhead, hc1, hc2, hc3⟩ :=
      BattleCast.cast_of_mirror_counts service env fuel
        ((BattleCast.reflect self.stagePlaceholder attackedCre.asCaster).aimToHex
          (env.nextItem (self.stagePlaceholder.mirrorTargets st) h st).1.val.getPosition)
        (env.nextItem (self.stagePlaceholder.mirrorTargets st) h st).2 rfl
    have hstage : ((BattleCast.reflect self.stagePlaceholder attackedCre.asCaster).aimToHex
          (env.nextItem (self.stagePlaceholder.mirrorTargets st) h
            st).1.val.getPosition).stagePlaceholder
        = (BattleCast.reflect self.stagePlaceholder attackedCre.asCaster).aimToHex
          (env.nextItem (self.stagePlaceholder.mirrorTargets st) h st).1.val.getPosition := rfl
    rw [hstage] at hself hhead
    obtain ⟨s3, later, hloop⟩ := hloopOk rest r.state
    refine ⟨r, s3, later, hr,
      (env.nextItem (self.stagePlaceholder.mirrorTargets st) h st).1.property,
      by rw [hself]; rfl, by rw [hself]; rfl, by rw [hself]; rfl, ?_, hc1, hc2, hc3, hloop, ?_⟩
    · rw [hhead, hself]
    · have hn : BattleCast.nestedCast service env (fuel + 1)
          ((BattleCast.reflect self.stagePlaceholder attackedCre.asCaster).aimToHex
            (env.nextItem (self.stagePlaceholder.mirrorTargets st) h st).1.val.getPosition)
          (env.nextItem (self.stagePlaceholder.mirrorTargets st) h st).2
          = some (r.state, r.effects) := by
        simp only [BattleCast.nestedCast, hr, Option.map_some']
      simp only [reflectionLoop, hmode1, if_false, h, dite_true, hn, hloop]

/-- C16 at `heroEvent` (player 0 owns the stacks on hexes 17 and 18, the generator picks
the first candidate) for a reflecting stack of player 1: one reflected cast by that stack at
hex 17, which calls the behaviour once; and at `strangerEvent`, whose caster's owner has no
stack: the unit is skipped. -/
theorem C16_reflection_per_unit_witness :
    heroEvent.mode ≠ Mode.MAGIC_MIRROR
    ∧ (∃ (r : CastResult Unit) (s3 : Unit) (later : List (Effect Unit)),
        BattleCast.cast (constantService reflectingMechanics) headEnvironment 1
            ((BattleCast.reflect heroEvent.stagePlaceholder (sampleStack 1 90).asCaster).aimToHex
              ⟨17⟩) () = some r
        ∧ r.self.caster = (sampleStack 1 90).asCaster
        ∧ r.self.target = [Destination.ofHex ⟨17⟩]
        ∧ r.effects.countP Effect.isMechanicsCast = 1
        ∧ reflectionLoop headEnvironment
            (BattleCast.nestedCast (constantService reflectingMechanics) headEnvironment 1)
            heroEvent.stagePlaceholder [sampleStack 1 90] ()
          = some (s3, Effect.randomDraw 2 ::
              Effect.mirrorCast
                ((BattleCast.reflect heroEvent.stagePlaceholder
                  (sampleStack 1 90).asCaster).aimToHex ⟨17⟩) :: (r.effects ++ later)))
    ∧ reflectionLoop headEnvironment
          (BattleCast.nestedCast (constantService reflectingMechanics) headEnvironment 1)
          strangerEvent.stagePlaceholder [sampleStack 1 90] ()
        = reflectionLoop headEnvironment
          (BattleCast.nestedCast (constantService reflectingMechanics) headEnvironment 1)
          strangerEvent.stagePlaceholder [] () :=
  ⟨by decide,
   ((C16_reflection_per_unit (constantService reflectingMechanics) headEnvironment 0 heroEvent
      () (by decide)).2.2.2 (sampleStack 1 90) [] () rfl).elim
     (fun r h1 => h1.elim (fun s3 h2 => h2.elim (fun later h3 =>
       ⟨r, s3, later, h3.1, h3.2.2.1, h3.2.2.2.2.1, h3.2.2.2.2.2.2.1, h3.2.2.2.2.2.2.2.2.2.2⟩))),
   (C16_reflection_per_unit (constantService reflectingMechanics) headEnvironment 0
      strangerEvent () (by decide)).2.2.1 (sampleStack 1 90) [] () rfl⟩

/-! ### The fallback factory -/

theorem FallbackMechanicsFactory.addLevel_eq (s : CSpell) (level : Nat)
    (pipeline : effects.Effects) :
    FallbackMechanicsFactory.addLevel s level pipeline
      = pipeline ++ FallbackMechanicsFactory.expectedAtLevel s level := by
  unfold FallbackMechanicsFactory.addLevel FallbackMechanicsFactory.expectedAtLevel
    effects.Effects.add
  cases hoff : s.isOffensiveSpell <;>
    cases heff : (s.getLevelInfo level).effects <;>
      cases hcum : (s.getLevelInfo level).cumulativeEffects <;> simp [hoff, heff, hcum]

theorem FallbackMechanicsFactory.create_eq (s : CSpell) :
    FallbackMechanicsFactory.create s
      = FallbackMechanicsFactory.expectedAtLevel s 0
        ++ (FallbackMechanicsFactory.expectedAtLevel s 1
        ++ (FallbackMechanicsFactory.expectedAtLevel s 2
        ++ FallbackMechanicsFactory.expectedAtLevel s 3)) := by
  have hrange : List.range GameConstants.SPELL_SCHOOL_LEVELS = [0, 1, 2, 3] := by decide
  simp [FallbackMechanicsFactory.create, hrange, FallbackMechanicsFactory.addLevel_eq]

theorem FallbackMechanicsFactory.expectedAtLevel_level (s : CSpell) (level : Nat) :
    ∀ r ∈ FallbackMechanicsFactory.expectedAtLevel s level, r.level = level := by
  intro r hr
  unfold FallbackMechanicsFactory.expectedAtLevel at hr
  simp only [List.mem_append] at hr
  rcases hr with hr | hr
  · split_ifs at hr
    · simp only [List.mem_singleton] at hr
      rw [hr]
    · cases hr
  · split_ifs at hr
    · simp only [List.mem_singleton] at hr
      rw [hr]
    · simp only [List.mem_singleton] at hr
      rw [hr]
    · cases hr

theorem FallbackMechanicsFactory.expectedAtLevel_atLevel (s : CSpell) (level other : Nat) :
    (FallbackMechanicsFactory.expectedAtLevel s level).atLevel other
      = if level = other then FallbackMechanicsFactory.expectedAtLevel s level else [] := by
  unfold effects.Effects.atLevel
  split_ifs with h
  · rw [List.filter_eq_self]
    intro r hr
    simp [FallbackMechanicsFactory.expectedAtLevel_level s level r hr, h]
  · rw [List.filter_eq_nil_iff]
    intro r hr
    simp [FallbackMechanicsFactory.expectedAtLevel_level s level r hr, h]

theorem FallbackMechanicsFactory.create_atLevel (s : CSpell) (level : Nat)
    (h : level < GameConstants.SPELL_SCHOOL_LEVELS) :
    (FallbackMechanicsFactory.create s).atLevel level
      = FallbackMechanicsFactory.expectedAtLevel s level := by
  have e := FallbackMechanicsFactory.expectedAtLevel_atLevel s
  unfold effects.Effects.atLevel at e
  rw [FallbackMechanicsFactory.create_eq]
  unfold effects.Effects.atLevel
  simp only [List.filter_append, e]
  have h4 : level < 4 := h
  interval_cases level <;> simp

/-- C11: for an offensive spell whose legacy tables `effects` and `cumulativeEffects` are
empty at each of the levels 0..3, the pipeline built by `FallbackMechanicsFactory` consists
of exactly one effect per level, the "directDamage" effect of that level, and holds no
"timed" effect. -/
theorem C11_offensive_without_tables (s : CSpell) (hOffensive : s.isOffensiveSpell = true)
    (hTables : ∀ level, level < GameConstants.SPELL_SCHOOL_LEVELS →
      (s.getLevelInfo level).effects = [] ∧ (s.getLevelInfo level).cumulativeEffects = []) :
    FallbackMechanicsFactory.create s
      = [{ name := "directDamage", effect := effects.Effect.Damage 0, level := 0 },
         { name := "directDamage", effect := effects.Effect.Damage 1, level := 1 },
         { name := "directDamage", effect := effects.Effect.Damage 2, level := 2 },
         { name := "directDamage", effect := effects.Effect.Damage 3, level := 3 }]
    ∧ (∀ level, level < GameConstants.SPELL_SCHOOL_LEVELS →
        (FallbackMechanicsFactory.create s).atLevel level
          = [{ name := "directDamage", effect := effects.Effect.Damage level, level := level }])
    ∧ (∀ r ∈ FallbackMechanicsFactory.create s, r.name ≠ "timed") := by
  have hExp : ∀ level, level < GameConstants.SPELL_SCHOOL_LEVELS →
      FallbackMechanicsFactory.expectedAtLevel s level
        = [{ name := "directDamage", effect := effects.Effect.Damage level,
             level := level }] := by
    intro level hl
    obtain ⟨h1, h2⟩ := hTables level hl
    simp [FallbackMechanicsFactory.expectedAtLevel, hOffensive, h1, h2]
  have hAll : FallbackMechanicsFactory.create s
      = [{ name := "directDamage", effect := effects.Effect.Damage 0, level := 0 },
         { name := "directDamage", effect := effects.Effect.Damage 1, level := 1 },
         { name := "directDamage", effect := effects.Effect.Damage 2, level := 2 },
         { name := "directDamage", effect := effects.Effect.Damage 3, level := 3 }] := by
    rw [FallbackMechanicsFactory.create_eq, hExp 0 (by decide), hExp 1 (by decide),
      hExp 2 (by decide), hExp 3 (by decide)]
    rfl
  refine ⟨hAll, ?_, ?_⟩
  · intro level hl
    rw [FallbackMechanicsFactory.create_atLevel s level hl, hExp level hl]
  · intro r hr
    rw [hAll] at hr
    simp only [List.mem_cons, List.mem_singleton, List.not_mem_nil, or_false] at hr
    rcases hr with hr | hr | hr | hr <;> rw [hr] <;> decide

/-- C11 at `offensiveSpell`: four "directDamage" effects, one per level, nothing else. -/
theorem C11_offensive_without_tables_witness :
    offensiveSpell.isOffensiveSpell = true
    ∧ FallbackMechanicsFactory.create offensiveSpell
      = [{ name := "directDamage", effect := effects.Effect.Damage 0, level := 0 },
         { name := "directDamage", effect := effects.Effect.Damage 1, level := 1 },
         { name := "directDamage", effect := effects.Effect.Damage 2, level := 2 },
         { name := "directDamage", effect := effects.Effect.Damage 3, level := 3 }] :=
  ⟨rfl, (C11_offensive_without_tables offensiveSpell rfl (fun _ _ => ⟨rfl, rfl⟩)).1⟩

/-- C19: at each level 0..3 the fallback factory registers exactly what is expected: a
"directDamage" effect if and only if the spell is offensive; a "timed" effect if and only if
the level's `effects` or `cumulativeEffects` table is not empty, and never more than one;
the timed effect carries the `effects` table with `cumulative = false` when only that table
is not empty, and the `cumulativeEffects` table with `cumulative = true` whenever that table
is not empty, the other table then being dropped. -/
theorem C19_fallback_registrations (s : CSpell) (level : Nat)
    (hLevel : level < GameConstants.SPELL_SCHOOL_LEVELS) :
    (FallbackMechanicsFactory.create s).atLevel level
      = FallbackMechanicsFactory.expectedAtLevel s level
    ∧ ((∃ r ∈ (FallbackMechanicsFactory.create s).atLevel level, r.name = "directDamage")
        ↔ s.isOffensiveSpell = true)
    ∧ ((∃ r ∈ (FallbackMechanicsFactory.create s).atLevel level, r.name = "timed")
        ↔ ((s.getLevelInfo level).effects ≠ [] ∨ (s.getLevelInfo level).cumulativeEffects ≠ []))
    ∧ ((FallbackMechanicsFactory.create s).atLevel level).countP (fun r => r.name == "timed") ≤ 1
    ∧ ((s.getLevelInfo level).cumulativeEffects = [] → (s.getLevelInfo level).effects ≠ [] →
        ∀ r ∈ (FallbackMechanicsFactory.create s).atLevel level, r.name = "timed" →
          r.effect = effects.Effect.Timed level false (s.getLevelInfo level).effects)
    ∧ ((s.getLevelInfo level).cumulativeEffects ≠ [] →
        ∀ r ∈ (FallbackMechanicsFactory.create s).atLevel level, r.name = "timed" →
          r.effect = effects.Effect.Timed level true (s.getLevelInfo level).cumulativeEffects) := by
  rw [FallbackMechanicsFactory.create_atLevel s level hLevel]
  unfold FallbackMechanicsFactory.expectedAtLevel
  refine ⟨rfl, ?_, ?_, ?_, ?_, ?_⟩
  · cases hoff : s.isOffensiveSpell <;>
      cases heff : (s.getLevelInfo level).effects <;>
        cases hcum : (s.getLevelInfo level).cumulativeEffects <;> simp
  · cases hoff : s.isOffensiveSpell <;>
      cases heff : (s.getLevelInfo level).effects <;>
        cases hcum : (s.getLevelInfo level).cumulativeEffects <;> simp
  · cases hoff : s.isOffensiveSpell <;>
      cases heff : (s.getLevelInfo level).effects <;>
        cases hcum : (s.getLevelInfo level).cumulativeEffects <;>
          simp [List.countP_cons]
  · intro hcum heff
    cases hoff : s.isOffensiveSpell <;> simp [hcum, heff]
  · intro hcum
    cases hoff : s.isOffensiveSpell <;> simp [hcum]

/-- C19 at `timedSpell`, level 1, where both tables are filled: a single "timed" effect, which
carries the cumulative table with `cumulative = true`; no "directDamage". -/
theorem C19_fallback_registrations_witness :
    1 < GameConstants.SPELL_SCHOOL_LEVELS
    ∧ (FallbackMechanicsFactory.create timedSpell).atLevel 1
      = [{ name := "timed", effect := effects.Effect.Timed 1 true [sampleBonus 3], level := 1 }] :=
  ⟨by decide, (C19_fallback_registrations timedSpell 1 (by decide)).1.trans (by decide)⟩

/-! ### Target types -/

/-- C12: `BaseMechanics::getTargetTypes` returns the empty sequence when the generic
`canBeCast` check fails; otherwise it returns exactly one entry: `NO_TARGET` if the spell is
massive for the resolved range level and mode, whatever its native aim type; else `LOCATION`
if the native aim type is `OBSTACLE`; else the native aim type. -/
theorem C12_getTargetTypes (canBeCast : BaseMechanics → Bool) (m : BaseMechanics) :
    (canBeCast m = false → m.getTargetTypes canBeCast = [])
    ∧ (canBeCast m = true →
        (m.getTargetTypes canBeCast).length = 1
        ∧ ((m.owner.targetInfo m.getRangeLevel m.mode).massive = true →
            m.getTargetTypes canBeCast = [AimType.NO_TARGET])
        ∧ ((m.owner.targetInfo m.getRangeLevel m.mode).massive = false →
            m.owner.getTargetType = AimType.OBSTACLE →
            m.getTargetTypes canBeCast = [AimType.LOCATION])
        ∧ ((m.owner.targetInfo m.getRangeLevel m.mode).massive = false →
            m.owner.getTargetType ≠ AimType.OBSTACLE →
            m.getTargetTypes canBeCast = [m.owner.getTargetType])) := by
  constructor
  · intro h
    simp [BaseMechanics.getTargetTypes, h]
  · intro h
    refine ⟨?_, ?_, ?_, ?_⟩
    · simp [BaseMechanics.getTargetTypes, h]
    · intro hm
      simp [BaseMechanics.getTargetTypes, BaseMechanics.isMassive, h, hm]
    · intro hm ho
      simp [BaseMechanics.getTargetTypes, BaseMechanics.isMassive, h, hm, ho]
    · intro hm ho
      simp [BaseMechanics.getTargetTypes, BaseMechanics.isMassive, h, hm, ho]

/-- C12 at a massive spell whose native aim type is a unit (one entry, `NO_TARGET`), at a
spell that is not massive and aims at an obstacle (one entry, `LOCATION`), and with a failing
`canBeCast` (no entry). -/
theorem C12_getTargetTypes_witness :
    (BaseMechanics.create (BattleCast.create emptyBattle (constantCaster 0 1 1 2 2 0)
        Mode.HERO massiveSpell)).getTargetTypes (fun _ => true) = [AimType.NO_TARGET]
    ∧ (BaseMechanics.create (BattleCast.create emptyBattle (constantCaster 0 1 1 2 2 0)
        Mode.HERO obstacleSpell)).getTargetTypes (fun _ => true) = [AimType.LOCATION]
    ∧ (BaseMechanics.create (BattleCast.create emptyBattle (constantCaster 0 1 1 2 2 0)
        Mode.HERO massiveSpell)).getTargetTypes (fun _ => false) = [] :=
  ⟨((C12_getTargetTypes (fun _ => true) (BaseMechanics.create (BattleCast.create emptyBattle
      (constantCaster 0 1 1 2 2 0) Mode.HERO massiveSpell))).2 rfl).2.1 rfl,
   ((C12_getTargetTypes (fun _ => true) (BaseMechanics.create (BattleCast.create emptyBattle
      (constantCaster 0 1 1 2 2 0) Mode.HERO obstacleSpell))).2 rfl).2.2.1 rfl rfl,
   (C12_getTargetTypes (fun _ => false) (BaseMechanics.create (BattleCast.create emptyBattle
      (constantCaster 0 1 1 2 2 0) Mode.HERO massiveSpell))).1 rfl⟩

/-! ### Adapting rejection codes -/

theorem BaseMechanics.adaptProblem_limit_artifact (m : BaseMechanics) (hero : CGHeroInstance)
    (hHero : m.caster.asHero = some hero) (b : Bonus)
    (hb : hero.getBonusLocalFirst BonusType.BLOCK_MAGIC_ABOVE = some b)
    (h1 : b.val = 2 ∧ b.source = BonusSource.ARTIFACT) (target : Problem) :
    m.adaptProblem ESpellCastProblem.SPELL_LEVEL_LIMIT_EXCEEDED target
      = some (false, target ++ [(m.caster.getCasterName
          [MetaStringItem.addTxt MetaStringKind.GENERAL_TXT 536,
           MetaStringItem.addReplacement MetaStringKind.ART_NAMES b.sid], Severity.NORMAL)]) := by
  simp [BaseMechanics.adaptProblem, hHero, hb, h1, Problem.add, MetaString.addTxt,
    MetaString.addReplacement]

theorem BaseMechanics.adaptProblem_limit_terrain (m : BaseMechanics) (hero : CGHeroInstance)
    (hHero : m.caster.asHero = some hero) (b : Bonus)
    (hb : hero.getBonusLocalFirst BonusType.BLOCK_MAGIC_ABOVE = some b)
    (h1 : ¬ (b.val = 2 ∧ b.source = BonusSource.ARTIFACT))
    (h2 : b.source = BonusSource.TERRAIN_OVERLAY ∧ b.sid = BFieldType.CURSED_GROUND)
    (target : Problem) :
    m.adaptProblem ESpellCastProblem.SPELL_LEVEL_LIMIT_EXCEEDED target
      = some (false, target ++ [([MetaStringItem.addTxt MetaStringKind.GENERAL_TXT 537],
          Severity.NORMAL)]) := by
  have h1a : ¬ (b.val = 2 ∧ b.source = BonusSource.ARTIFACT) := h1
  simp only [BaseMechanics.adaptProblem, hHero, hb, if_neg h1a, if_pos h2, Problem.add,
    MetaString.addTxt]
  simp

theorem BaseMechanics.adaptProblem_limit_other (m : BaseMechanics) (hero : CGHeroInstance)
    (hHero : m.caster.asHero = some hero) (b : Bonus)
    (hb : hero.getBonusLocalFirst BonusType.BLOCK_MAGIC_ABOVE = some b)
    (h1 : ¬ (b.val = 2 ∧ b.source = BonusSource.ARTIFACT))
    (h2 : ¬ (b.source = BonusSource.TERRAIN_OVERLAY ∧ b.sid = BFieldType.CURSED_GROUND))
    (target : Problem) :
    m.adaptProblem ESpellCastProblem.SPELL_LEVEL_LIMIT_EXCEEDED target
      = some (false, target ++ [(m.caster.getCasterName
          [MetaStringItem.addTxt MetaStringKind.GENERAL_TXT 541], Severity.NORMAL)]) := by
  simp only [BaseMechanics.adaptProblem, hHero, hb, if_neg h1, if_neg h2,
    BaseMechanics.adaptGenericProblem, Problem.add, MetaString.addTxt]
  simp

theorem BaseMechanics.adaptProblem_limit_none (m : BaseMechanics) (hero : CGHeroInstance)
    (hHero : m.caster.asHero = some hero)
    (hb : hero.getBonusLocalFirst BonusType.BLOCK_MAGIC_ABOVE = none) (target : Problem) :
    m.adaptProblem ESpellCastProblem.SPELL_LEVEL_LIMIT_EXCEEDED target
      = some (false, target ++ [(m.caster.getCasterName
          [MetaStringItem.addTxt MetaStringKind.GENERAL_TXT 541], Severity.NORMAL)]) := by
  simp only [BaseMechanics.adaptProblem, hHero, hb, BaseMechanics.adaptGenericProblem,
    Problem.add, MetaString.addTxt]
  simp

/-- C13: for a caster that is a hero, `BaseMechanics::adaptProblem` returns for every
rejection code; it returns true exactly for `OK`, and then adds nothing to the collector;
for every other code it returns false and adds exactly one message behind those already
collected, with severity `CRITICAL` exactly when the code is `INVALID` and `NORMAL`
otherwise; a code that is not enumerated gets the generic explanation, text 541 of the
general texts extended by the caster's name. -/
theorem C13_adaptProblem_hero (m : BaseMechanics) (hero : CGHeroInstance)
    (hHero : m.caster.asHero = some hero) (source : ESpellCastProblem) (target : Problem) :
    ∃ (flag : Bool) (result : Problem), m.adaptProblem source target = some (flag, result)
      ∧ (flag = true ↔ source = ESpellCastProblem.OK)
      ∧ (source = ESpellCastProblem.OK → result = target)
      ∧ (source ≠ ESpellCastProblem.OK →
          ∃ (text : MetaString) (severity : Severity), result = target ++ [(text, severity)]
            ∧ (severity = Severity.CRITICAL ↔ source = ESpellCastProblem.INVALID)
            ∧ (source ≠ ESpellCastProblem.INVALID → severity = Severity.NORMAL))
      ∧ (∀ n, source = ESpellCastProblem.other n →
          result = target ++ [(m.caster.getCasterName
            [MetaStringItem.addTxt MetaStringKind.GENERAL_TXT 541], Severity.NORMAL)]) := by
  cases source with
  | OK =>
    refine ⟨true, target, rfl, by simp, fun _ => rfl, fun h => absurd rfl h, ?_⟩
    intro n h; cases h
  | SPELL_LEVEL_LIMIT_EXCEEDED =>
    cases hb : hero.getBonusLocalFirst BonusType.BLOCK_MAGIC_ABOVE with
    | none =>
      refine ⟨false, _, BaseMechanics.adaptProblem_limit_none m hero hHero hb target, by simp,
        (fun h => nomatch h), fun _ => ⟨_, Severity.NORMAL, rfl, by simp, fun _ => rfl⟩, ?_⟩
      intro n h; cases h
    | some b =>
      by_cases h1 : b.val = 2 ∧ b.source = BonusSource.ARTIFACT
      · refine ⟨false, _, BaseMechanics.adaptProblem_limit_artifact m hero hHero b hb h1 target,
          by simp, (fun h => nomatch h),
          fun _ => ⟨_, Severity.NORMAL, rfl, by simp, fun _ => rfl⟩, ?_⟩
        intro n h; cases h
      · by_cases h2 : b.source = BonusSource.TERRAIN_OVERLAY ∧ b.sid = BFieldType.CURSED_GROUND
        · refine ⟨false, _,
            BaseMechanics.adaptProblem_limit_terrain m hero hHero b hb h1 h2 target,
            by simp, (fun h => nomatch h),
            fun _ => ⟨_, Severity.NORMAL, rfl, by simp, fun _ => rfl⟩, ?_⟩
          intro n h; cases h
        · refine ⟨false, _,
            BaseMechanics.adaptProblem_limit_other m hero hHero b hb h1 h2 target,
            by simp, (fun h => nomatch h),
            fun _ => ⟨_, Severity.NORMAL, rfl, by simp, fun _ => rfl⟩, ?_⟩
          intro n h; cases h
  | WRONG_SPELL_TARGET =>
    refine ⟨false, _, rfl, by simp, (fun h => nomatch h),
      fun _ => ⟨_, Severity.NORMAL, rfl, by simp, fun _ => rfl⟩, ?_⟩
    intro n h; cases h
  | STACK_IMMUNE_TO_SPELL =>
    refine ⟨false, _, rfl, by simp, (fun h => nomatch h),
      fun _ => ⟨_, Severity.NORMAL, rfl, by simp, fun _ => rfl⟩, ?_⟩
    intro n h; cases h
  | NO_APPROPRIATE_TARGET =>
    refine ⟨false, _, rfl, by simp, (fun h => nomatch h),
      fun _ => ⟨_, Severity.NORMAL, rfl, by simp, fun _ => rfl⟩, ?_⟩
    intro n h; cases h
  | INVALID =>
    refine ⟨false, _, rfl, by simp, (fun h => nomatch h),
      fun _ => ⟨_, Severity.CRITICAL, rfl, by simp, fun h => absurd rfl h⟩, ?_⟩
    intro n h; cases h
  | other k =>
    refine ⟨false, _, rfl, by simp, (fun h => nomatch h),
      fun _ => ⟨_, Severity.NORMAL, rfl, by simp, fun _ => rfl⟩, ?_⟩
    intro n _; rfl

/-- C13 at a hero caster without any `BLOCK_MAGIC_ABOVE` bonus: `OK` returns true and adds
nothing, `INVALID` returns false and adds one `CRITICAL` message, the code `other 40`, which
is not enumerated, returns false and adds the generic explanation. -/
theorem C13_adaptProblem_hero_witness :
    (heroMechanics none).caster.asHero = some (sampleHero none)
    ∧ (heroMechanics none).adaptProblem ESpellCastProblem.OK [] = some (true, [])
    ∧ (∃ text : MetaString, (heroMechanics none).adaptProblem ESpellCastProblem.INVALID []
        = some (false, [(text, Severity.CRITICAL)]))
    ∧ (heroMechanics none).adaptProblem (ESpellCastProblem.other 40) []
      = some (false, [([MetaStringItem.addTxt MetaStringKind.GENERAL_TXT 541,
          MetaStringItem.addReplacementText "hero"], Severity.NORMAL)]) := by
  refine ⟨rfl, ?_, ?_, ?_⟩
  · obtain ⟨flag, result, h, hflag, hok, _, _⟩ :=
      C13_adaptProblem_hero (heroMechanics none) (sampleHero none) rfl ESpellCastProblem.OK []
    rw [h, hok rfl, hflag.mpr rfl]
  · obtain ⟨flag, result, h, hflag, _, hne, _⟩ :=
      C13_adaptProblem_hero (heroMechanics none) (sampleHero none) rfl
        ESpellCastProblem.INVALID []
    obtain ⟨text, severity, hres, hsev, _⟩ := hne (by decide)
    have hfalse : flag = false := by
      cases flag
      · rfl
      · exact absurd (hflag.mp rfl) (by decide)
    exact ⟨text, by rw [h, hfalse, hres, hsev.mpr rfl]; rfl⟩
  · obtain ⟨flag, result, h, hflag, _, _, hother⟩ :=
      C13_adaptProblem_hero (heroMechanics none) (sampleHero none) rfl
        (ESpellCastProblem.other 40) []
    have hfalse : flag = false := by
      cases flag
      · rfl
      · exact absurd (hflag.mp rfl) (by decide)
    rw [h, hfalse, hother 40 rfl]
    rfl

theorem BaseMechanics.adaptProblem_no_hero (m : BaseMechanics)
    (hHero : m.caster.asHero = none) (source : ESpellCastProblem) (target : Problem) :
    (m.adaptProblem source target = none ↔
      source = ESpellCastProblem.SPELL_LEVEL_LIMIT_EXCEEDED) := by
  cases source <;> simp [BaseMechanics.adaptProblem, hHero]

/-- C17, the failing input: for the caster of `stackMechanics`, a creature stack, the
`dynamic_cast` to a hero yields no hero, and `adaptProblem` with the code
`SPELL_LEVEL_LIMIT_EXCEEDED` does not return: it calls `getBonusLocalFirst` through the null
`hero` pointer.  With every other code the call returns for this caster, for instance with
`INVALID`. -/
theorem C17_limit_exceeded_without_hero :
    stackMechanics.caster.asHero = none
    ∧ stackMechanics.adaptProblem ESpellCastProblem.SPELL_LEVEL_LIMIT_EXCEEDED [] = none
    ∧ stackMechanics.adaptProblem ESpellCastProblem.INVALID []
      = some (false, [([MetaStringItem.addReplacementText
          "Internal error during check of spell cast."], Severity.CRITICAL)]) :=
  ⟨rfl, by decide, by decide⟩

/-- C18: for a hero caster and the code `SPELL_LEVEL_LIMIT_EXCEEDED` the explanation is
chosen from the hero's first `BLOCK_MAGIC_ABOVE` bonus `b`: text 536 with the artifact's name
`b.sid` and the caster's name when `b` exists with value 2 and source `ARTIFACT`; otherwise
text 537 when `b` exists with source `TERRAIN_OVERLAY` and id `CURSED_GROUND`; otherwise, also
when there is no such bonus, the generic text 541 with the caster's name.  In each case the
call returns false and adds exactly that one message, with severity `NORMAL`. -/
theorem C18_level_limit_explanation (m : BaseMechanics) (hero : CGHeroInstance)
    (hHero : m.caster.asHero = some hero) (target : Problem) :
    (∀ b : Bonus, hero.getBonusLocalFirst BonusType.BLOCK_MAGIC_ABOVE = some b →
        b.val = 2 → b.source = BonusSource.ARTIFACT →
        m.adaptProblem ESpellCastProblem.SPELL_LEVEL_LIMIT_EXCEEDED target
          = some (false, target ++ [(m.caster.getCasterName
              [MetaStringItem.addTxt MetaStringKind.GENERAL_TXT 536,
               MetaStringItem.addReplacement MetaStringKind.ART_NAMES b.sid],
              Severity.NORMAL)]))
    ∧ (∀ b : Bonus, hero.getBonusLocalFirst BonusType.BLOCK_MAGIC_ABOVE = some b →
        b.source = BonusSource.TERRAIN_OVERLAY → b.sid = BFieldType.CURSED_GROUND →
        m.adaptProblem ESpellCastProblem.SPELL_LEVEL_LIMIT_EXCEEDED target
          = some (false, target ++ [([MetaStringItem.addTxt MetaStringKind.GENERAL_TXT 537],
              Severity.NORMAL)]))
    ∧ (∀ b : Bonus, hero.getBonusLocalFirst BonusType.BLOCK_MAGIC_ABOVE = some b →
        ¬ (b.val = 2 ∧ b.source = BonusSource.ARTIFACT) →
        ¬ (b.source = BonusSource.TERRAIN_OVERLAY ∧ b.sid = BFieldType.CURSED_GROUND) →
        m.adaptProblem ESpellCastProblem.SPELL_LEVEL_LIMIT_EXCEEDED target
          = some (false, target ++ [(m.caster.getCasterName
              [MetaStringItem.addTxt MetaStringKind.GENERAL_TXT 541], Severity.NORMAL)]))
    ∧ (hero.getBonusLocalFirst BonusType.BLOCK_MAGIC_ABOVE = none →
        m.adaptProblem ESpellCastProblem.SPELL_LEVEL_LIMIT_EXCEEDED target
          = some (false, target ++ [(m.caster.getCasterName
              [MetaStringItem.addTxt MetaStringKind.GENERAL_TXT 541], Severity.NORMAL)])) := by
  refine ⟨?_, ?_, ?_, ?_⟩
  · intro b hb hval hsrc
    exact BaseMechanics.adaptProblem_limit_artifact m hero hHero b hb ⟨hval, hsrc⟩ target
  · intro b hb hsrc hsid
    refine BaseMechanics.adaptProblem_limit_terrain m hero hHero b hb ?_ ⟨hsrc, hsid⟩ target
    rintro ⟨_, h⟩
    rw [hsrc] at h
    cases h
  · intro b hb h1 h2
    exact BaseMechanics.adaptProblem_limit_other m hero hHero b hb h1 h2 target
  · intro hb
    exact BaseMechanics.adaptProblem_limit_none m hero hHero hb target

/-- C18 at heroes with the bonus `cloakBonus` (value 2, artifact 93), `cursedGroundBonus` and
`otherBlockBonus` (value 3 from an artifact), and at a hero without the bonus. -/
theorem C18_level_limit_explanation_witness :
    (heroMechanics (some cloakBonus)).adaptProblem
        ESpellCastProblem.SPELL_LEVEL_LIMIT_EXCEEDED []
      = some (false, [([MetaStringItem.addTxt MetaStringKind.GENERAL_TXT 536,
          MetaStringItem.addReplacement MetaStringKind.ART_NAMES 93,
          MetaStringItem.addReplacementText "hero"], Severity.NORMAL)])
    ∧ (heroMechanics (some cursedGroundBonus)).adaptProblem
        ESpellCastProblem.SPELL_LEVEL_LIMIT_EXCEEDED []
      = some (false, [([MetaStringItem.addTxt MetaStringKind.GENERAL_TXT 537],
          Severity.NORMAL)])
    ∧ (heroMechanics (some otherBlockBonus)).adaptProblem
        ESpellCastProblem.SPELL_LEVEL_LIMIT_EXCEEDED []
      = some (false, [([MetaStringItem.addTxt MetaStringKind.GENERAL_TXT 541,
          MetaStringItem.addReplacementText "hero"], Severity.NORMAL)])
    ∧ (heroMechanics none).adaptProblem ESpellCastProblem.SPELL_LEVEL_LIMIT_EXCEEDED []
      = some (false, [([MetaStringItem.addTxt MetaStringKind.GENERAL_TXT 541,
          MetaStringItem.addReplacementText "hero"], Severity.NORMAL)]) :=
  ⟨(C18_level_limit_explanation (heroMechanics (some cloakBonus)) (sampleHero (some cloakBonus))
      rfl []).1 cloakBonus rfl rfl rfl,
   (C18_level_limit_explanation (heroMechanics (some cursedGroundBonus))
      (sampleHero (some cursedGroundBonus)) rfl []).2.1 cursedGroundBonus rfl rfl rfl,
   (C18_level_limit_explanation (heroMechanics (some otherBlockBonus))
      (sampleHero (some otherBlockBonus)) rfl []).2.2.1 otherBlockBonus rfl
      (by decide) (by decide),
   (C18_level_limit_explanation (heroMechanics none) (sampleHero none) rfl []).2.2.2 rfl⟩

/-! ### Applying effects without a cast -/

theorem BattleCast.applyEffects_hands_target (service : SpellService σ)
    (env : SpellCastEnvironment σ) (self : BattleCast σ) (s : σ) :
    (BattleCast.applyEffects service env self s).effects
        = [Effect.mechanicsApplyEffects self self.target]
    ∧ (BattleCast.applyEffects service env self s).state
        = (service.battleMechanics self.spell self).applyEffects env s self.target
    ∧ (BattleCast.applyEffectsForced service env self s).effects
        = [Effect.mechanicsApplyEffectsForced self self.target]
    ∧ (BattleCast.applyEffectsForced service env self s).state
        = (service.battleMechanics self.spell self).applyEffectsForced env s self.target
    ∧ (BattleCast.applyEffects service env self s).self = self
    ∧ (BattleCast.applyEffectsForced service env self s).self = self :=
  ⟨rfl, rfl, rfl, rfl, rfl, rfl⟩

/-- C21, the failing input: `countingEvent` has no destination staged, and its behaviour
leaves in the battle state the number of destinations it is handed.  `applyEffects` and
`applyEffectsForced` hand it the empty sequence (the count is 0, no placeholder is passed),
while both `cast` entry points hand it the one placeholder (the count is 1). -/
theorem C21_applyEffects_without_placeholder :
    countingEvent.target = []
    ∧ (BattleCast.applyEffects countingService countingEnvironment countingEvent 7).state = 0
    ∧ (BattleCast.applyEffects countingService countingEnvironment countingEvent 7).effects
        = [Effect.mechanicsApplyEffects countingEvent []]
    ∧ (BattleCast.applyEffectsForced countingService countingEnvironment countingEvent 7).state
        = 0
    ∧ (BattleCast.applyEffectsForced countingService countingEnvironment countingEvent
        7).effects = [Effect.mechanicsApplyEffectsForced countingEvent []]
    ∧ (BattleCast.castOnBattleState countingService countingEvent 7).state = 1
    ∧ (BattleCast.cast countingService countingEnvironment 2 countingEvent 7).map
        (fun r => r.state) = some 1 :=
  ⟨rfl, rfl, rfl, rfl, rfl, rfl, rfl⟩

/-! ### The spell level as override of both levels -/

/-- C22: on a `BattleCast` without range-level and effect-level override, after
`setSpellLevel(v)` both `getRangeLevel` and `getEffectLevel` return `v`, and a `BaseMechanics`
built from it resolves both levels to `v` clamped into [0,3], the same for any caster put in
its place.  A `setRangeLevel(r)`, called after or before `setSpellLevel(v)`, makes
`getRangeLevel` return `r` and the range level resolve to `r` clamped, and leaves the effect
level at `v`; likewise a `setEffectLevel(e)` changes the effect level only. -/
theorem C22_spell_level_sets_both (event : BattleCast σ) (v r e : Int)
    (hRange : event.rangeLevel = none) (hEffect : event.effectLevel = none) :
    ((event.setSpellLevel v).getRangeLevel = some v
      ∧ (event.setSpellLevel v).getEffectLevel = some v
      ∧ (BaseMechanics.create (event.setSpellLevel v)).getRangeLevel = max 0 (min v 3)
      ∧ (BaseMechanics.create (event.setSpellLevel v)).getEffectLevel = max 0 (min v 3)
      ∧ ∀ other : Caster,
          (BaseMechanics.create { event.setSpellLevel v with caster := other }).getRangeLevel
            = (BaseMechanics.create (event.setSpellLevel v)).getRangeLevel
          ∧ (BaseMechanics.create { event.setSpellLevel v with caster := other }).getEffectLevel
            = (BaseMechanics.create (event.setSpellLevel v)).getEffectLevel)
    ∧ (((event.setSpellLevel v).setRangeLevel r).getRangeLevel = some r
      ∧ ((event.setSpellLevel v).setRangeLevel r).getEffectLevel = some v
      ∧ ((event.setRangeLevel r).setSpellLevel v).getRangeLevel = some r
      ∧ ((event.setRangeLevel r).setSpellLevel v).getEffectLevel = some v
      ∧ (BaseMechanics.create ((event.setSpellLevel v).setRangeLevel r)).getRangeLevel
          = max 0 (min r 3)
      ∧ (BaseMechanics.create ((event.setSpellLevel v).setRangeLevel r)).getEffectLevel
          = max 0 (min v 3)
      ∧ (BaseMechanics.create ((event.setRangeLevel r).setSpellLevel v)).getRangeLevel
          = max 0 (min r 3)
      ∧ (BaseMechanics.create ((event.setRangeLevel r).setSpellLevel v)).getEffectLevel
          = max 0 (min v 3))
    ∧ (((event.setSpellLevel v).setEffectLevel e).getEffectLevel = some e
      ∧ ((event.setSpellLevel v).setEffectLevel e).getRangeLevel = some v
      ∧ ((event.setEffectLevel e).setSpellLevel v).getEffectLevel = some e
      ∧ ((event.setEffectLevel e).setSpellLevel v).getRangeLevel = some v
      ∧ (BaseMechanics.create ((event.setSpellLevel v).setEffectLevel e)).getEffectLevel
          = max 0 (min e 3)
      ∧ (BaseMechanics.create ((event.setSpellLevel v).setEffectLevel e)).getRangeLevel
          = max 0 (min v 3)
      ∧ (BaseMechanics.create ((event.setEffectLevel e).setSpellLevel v)).getEffectLevel
          = max 0 (min e 3)
      ∧ (BaseMechanics.create ((event.setEffectLevel e).setSpellLevel v)).getRangeLevel
          = max 0 (min v 3)) := by
  have g1 : (event.setSpellLevel v).getRangeLevel = some v := by
    simp [BattleCast.getRangeLevel, BattleCast.setSpellLevel, hRange]
  have g2 : (event.setSpellLevel v).getEffectLevel = some v := by
    simp [BattleCast.getEffectLevel, BattleCast.setSpellLevel, hEffect]
  have g3 : ((event.setSpellLevel v).setRangeLevel r).getRangeLevel = some r := by
    simp [BattleCast.getRangeLevel, BattleCast.setRangeLevel]
  have g4 : ((event.setSpellLevel v).setRangeLevel r).getEffectLevel = some v := by
    simp [BattleCast.getEffectLevel, BattleCast.setSpellLevel, BattleCast.setRangeLevel, hEffect]
  have g5 : ((event.setRangeLevel r).setSpellLevel v).getRangeLevel = some r := by
    simp [BattleCast.getRangeLevel, BattleCast.setSpellLevel, BattleCast.setRangeLevel]
  have g6 : ((event.setRangeLevel r).setSpellLevel v).getEffectLevel = some v := by
    simp [BattleCast.getEffectLevel, BattleCast.setSpellLevel, BattleCast.setRangeLevel, hEffect]
  have g7 : ((event.setSpellLevel v).setEffectLevel e).getEffectLevel = some e := by
    simp [BattleCast.getEffectLevel, BattleCast.setEffectLevel]
  have g8 : ((event.setSpellLevel v).setEffectLevel e).getRangeLevel = some v := by
    simp [BattleCast.getRangeLevel, BattleCast.setSpellLevel, BattleCast.setEffectLevel, hRange]
  have g9 : ((event.setEffectLevel e).setSpellLevel v).getEffectLevel = some e := by
    simp [BattleCast.getEffectLevel, BattleCast.setSpellLevel, BattleCast.setEffectLevel]
  have g10 : ((event.setEffectLevel e).setSpellLevel v).getRangeLevel = some v := by
    simp [BattleCast.getRangeLevel, BattleCast.setSpellLevel, BattleCast.setEffectLevel, hRange]
  have range := fun (ev : BattleCast σ) (x : Int) (h : ev.getRangeLevel = some x) =>
    (BaseMechanics.rangeLevel_of_getter ev x h).trans (vstd.abetween_eq_clamp x)
  have effect := fun (ev : BattleCast σ) (x : Int) (h : ev.getEffectLevel = some x) =>
    (BaseMechanics.effectLevel_of_getter ev x h).trans (vstd.abetween_eq_clamp x)
  refine ⟨⟨g1, g2, range _ v g1, effect _ v g2, fun other => ⟨?_, ?_⟩⟩,
    ⟨g3, g4, g5, g6, range _ r g3, effect _ v g4, range _ r g5, effect _ v g6⟩,
    ⟨g7, g8, g9, g10, effect _ e g7, range _ v g8, effect _ e g9, range _ v g10⟩⟩
  · rw [range _ v g1]
    exact range _ v (by simp [BattleCast.getRangeLevel, BattleCast.setSpellLevel, hRange])
  · rw [effect _ v g2]
    exact effect _ v (by simp [BattleCast.getEffectLevel, BattleCast.setSpellLevel, hEffect])

/-- C22 at the cast of the regression test `issue2765`, which calls `setSpellLevel(3)` only:
both levels resolve to 3; and at `plainEvent` with `setSpellLevel(5)` and `setRangeLevel(1)`:
the range level resolves to 1, the effect level to 5 clamped, that is 3. -/
theorem C22_spell_level_sets_both_witness :
    ((BaseMechanics.create issue2765Event).getRangeLevel = max 0 (min 3 3)
      ∧ (BaseMechanics.create issue2765Event).getEffectLevel = max 0 (min 3 3))
    ∧ (BaseMechanics.create ((plainEvent.setSpellLevel 5).setRangeLevel 1)).getRangeLevel
        = max 0 (min 1 3)
    ∧ (BaseMechanics.create ((plainEvent.setSpellLevel 5).setRangeLevel 1)).getEffectLevel
        = max 0 (min 5 3) :=
  ⟨⟨(C22_spell_level_sets_both
        ({ BattleCast.create sampleBattle (sampleStack 0 17).asCaster Mode.AFTER_ATTACK
            sampleSpell with target := [Destination.ofUnit 2] }) 3 0 0 rfl rfl).1.2.2.1,
     (C22_spell_level_sets_both
        ({ BattleCast.create sampleBattle (sampleStack 0 17).asCaster Mode.AFTER_ATTACK
            sampleSpell with target := [Destination.ofUnit 2] }) 3 0 0 rfl rfl).1.2.2.2.1⟩,
   (C22_spell_level_sets_both plainEvent 5 1 0 rfl rfl).2.1.2.2.2.2.1,
   (C22_spell_level_sets_both plainEvent 5 1 0 rfl rfl).2.1.2.2.2.2.2.1⟩

/-! ### Adventure-map behaviours -/

theorem IAdventureSpellMechanics.createMechanics_kind (s : CSpell) :
    (IAdventureSpellMechanics.createMechanics s).map IAdventureSpellMechanics.kind
      = match s.id with
        | SpellID.SUMMON_BOAT => some AdventureMechanicsKind.SummonBoatMechanics
        | SpellID.SCUTTLE_BOAT => some AdventureMechanicsKind.ScuttleBoatMechanics
        | SpellID.DIMENSION_DOOR => some AdventureMechanicsKind.DimensionDoorMechanics
        | SpellID.FLY => some AdventureMechanicsKind.AdventureSpellMechanics
        | SpellID.WATER_WALK => some AdventureMechanicsKind.AdventureSpellMechanics
        | SpellID.VISIONS => some AdventureMechanicsKind.AdventureSpellMechanics
        | SpellID.DISGUISE => some AdventureMechanicsKind.AdventureSpellMechanics
        | SpellID.TOWN_PORTAL => some AdventureMechanicsKind.TownPortalMechanics
        | SpellID.VIEW_EARTH => some AdventureMechanicsKind.ViewEarthMechanics
        | SpellID.VIEW_AIR => some AdventureMechanicsKind.ViewAirMechanics
        | _ => none := by
  unfold IAdventureSpellMechanics.createMechanics
  cases s.id <;> rfl

/-- C23: `IAdventureSpellMechanics::createMechanics` returns a non-empty object exactly for
the ten identities `SUMMON_BOAT`, `SCUTTLE_BOAT`, `DIMENSION_DOOR`, `FLY`, `WATER_WALK`,
`VISIONS`, `DISGUISE`, `TOWN_PORTAL`, `VIEW_EARTH` and `VIEW_AIR`, and an empty pointer for
every other identity; the object is constructed for the given spell and its class is the
same for any two spells with the same identity: the dedicated class for six of the ten, the
generic `AdventureSpellMechanics` for `FLY`, `WATER_WALK`, `VISIONS` and `DISGUISE`. -/
theorem C23_createMechanics (s : CSpell) :
    ((IAdventureSpellMechanics.createMechanics s).isSome = true ↔
        s.id ∈ [SpellID.SUMMON_BOAT, SpellID.SCUTTLE_BOAT, SpellID.DIMENSION_DOOR, SpellID.FLY,
          SpellID.WATER_WALK, SpellID.VISIONS, SpellID.DISGUISE, SpellID.TOWN_PORTAL,
          SpellID.VIEW_EARTH, SpellID.VIEW_AIR])
    ∧ (s.id ∉ [SpellID.SUMMON_BOAT, SpellID.SCUTTLE_BOAT, SpellID.DIMENSION_DOOR, SpellID.FLY,
          SpellID.WATER_WALK, SpellID.VISIONS, SpellID.DISGUISE, SpellID.TOWN_PORTAL,
          SpellID.VIEW_EARTH, SpellID.VIEW_AIR] →
        IAdventureSpellMechanics.createMechanics s = none)
    ∧ (∀ m, IAdventureSpellMechanics.createMechanics s = some m → m.owner = s)
    ∧ (s.id = SpellID.SUMMON_BOAT →
        (IAdventureSpellMechanics.createMechanics s).map IAdventureSpellMechanics.kind
          = some AdventureMechanicsKind.SummonBoatMechanics)
    ∧ (s.id = SpellID.SCUTTLE_BOAT →
        (IAdventureSpellMechanics.createMechanics s).map IAdventureSpellMechanics.kind
          = some AdventureMechanicsKind.ScuttleBoatMechanics)
    ∧ (s.id = SpellID.DIMENSION_DOOR →
        (IAdventureSpellMechanics.createMechanics s).map IAdventureSpellMechanics.kind
          = some AdventureMechanicsKind.DimensionDoorMechanics)
    ∧ (s.id ∈ [SpellID.FLY, SpellID.WATER_WALK, SpellID.VISIONS, SpellID.DISGUISE] →
        (IAdventureSpellMechanics.createMechanics s).map IAdventureSpellMechanics.kind
          = some AdventureMechanicsKind.AdventureSpellMechanics)
    ∧ (s.id = SpellID.TOWN_PORTAL →
        (IAdventureSpellMechanics.createMechanics s).map IAdventureSpellMechanics.kind
          = some AdventureMechanicsKind.TownPortalMechanics)
    ∧ (s.id = SpellID.VIEW_EARTH →
        (IAdventureSpellMechanics.createMechanics s).map IAdventureSpellMechanics.kind
          = some AdventureMechanicsKind.ViewEarthMechanics)
    ∧ (s.id = SpellID.VIEW_AIR →
        (IAdventureSpellMechanics.createMechanics s).map IAdventureSpellMechanics.kind
          = some AdventureMechanicsKind.ViewAirMechanics)
    ∧ (∀ s1 : CSpell, s1.id = s.id →
        (IAdventureSpellMechanics.createMechanics s1).map IAdventureSpellMechanics.kind
          = (IAdventureSpellMechanics.createMechanics s).map IAdventureSpellMechanics.kind) := by
  refine ⟨?_, ?_, ?_, ?_, ?_, ?_, ?_, ?_, ?_, ?_, ?_⟩
  · unfold IAdventureSpellMechanics.createMechanics
    cases s.id <;> simp
  · unfold IAdventureSpellMechanics.createMechanics
    cases s.id <;> simp
  · intro m hm
    unfold IAdventureSpellMechanics.createMechanics at hm
    cases hid : s.id <;> simp [hid] at hm <;> rw [← hm]
  · intro h
    rw [IAdventureSpellMechanics.createMechanics_kind, h]
  · intro h
    rw [IAdventureSpellMechanics.createMechanics_kind, h]
  · intro h
    rw [IAdventureSpellMechanics.createMechanics_kind, h]
  · intro h
    rw [IAdventureSpellMechanics.createMechanics_kind]
    simp only [List.mem_cons, List.mem_singleton, List.not_mem_nil, or_false] at h
    rcases h with h | h | h | h <;> rw [h]
  · intro h
    rw [IAdventureSpellMechanics.createMechanics_kind, h]
  · intro h
    rw [IAdventureSpellMechanics.createMechanics_kind, h]
  · intro h
    rw [IAdventureSpellMechanics.createMechanics_kind, h]
  · intro s1 h
    rw [IAdventureSpellMechanics.createMechanics_kind, IAdventureSpellMechanics.createMechanics_kind,
      h]

/-- C23 at Fly and Disguise (both get the generic `AdventureSpellMechanics`), and at Age and
Fire Wall, which are no adventure-map spells: the pointer returned is empty. -/
theorem C23_createMechanics_witness :
    (IAdventureSpellMechanics.createMechanics flySpell).map IAdventureSpellMechanics.kind
      = some AdventureMechanicsKind.AdventureSpellMechanics
    ∧ (IAdventureSpellMechanics.createMechanics disguiseSpell).map IAdventureSpellMechanics.kind
      = some AdventureMechanicsKind.AdventureSpellMechanics
    ∧ IAdventureSpellMechanics.createMechanics sampleSpell = none
    ∧ IAdventureSpellMechanics.createMechanics legacyFireWall = none :=
  ⟨(C23_createMechanics flySpell).2.2.2.2.2.2.1 (by decide),
   (C23_createMechanics disguiseSpell).2.2.2.2.2.2.1 (by decide),
   (C23_createMechanics sampleSpell).2.1 (by decide),
   (C23_createMechanics legacyFireWall).2.1 (by decide)⟩

end spells
